import Mathlib

/-!
Verification development for the Scroll DAO treasury tracker
(src/fetcher.py, src/models.py, src/app.py, src/config.py).

The Python code is shallowly embedded: SQLite tables become lists of
records, floating-point REAL columns become exact rationals, machine
integers become Lean Int, and Python exceptions become Option / Except
results. Each definition is a direct translation of the function named
in its doc comment.
-/

namespace ScrollTreasury

/-! ## Python primitives -/

/-- The whitespace Python int() strips around a numeric string. -/
def pyIsSpace (c : Char) : Bool := c == ' ' || c == '\t' || c == '\n' || c == '\r'

/-- Value of a nonempty all-digit character list, as Nat; none otherwise. -/
def digitsVal (l : List Char) : Option Nat :=
  if l ≠ [] ∧ l.all Char.isDigit then
    some (l.foldl (fun a c => 10 * a + (c.toNat - 48)) 0)
  else none

/-- Python int(s) on a string: optional sign, decimal digits, surrounding
whitespace stripped; none models a raised ValueError. -/
def pyInt (s : String) : Option Int :=
  let t := ((s.data.dropWhile pyIsSpace).reverse.dropWhile pyIsSpace).reverse
  match t with
  | '-' :: rest => (digitsVal rest).map (fun n => -(n : Int))
  | '+' :: rest => (digitsVal rest).map (fun n => (n : Int))
  | _ => (digitsVal t).map (fun n => (n : Int))

/-- Python str.lower(), character by character. -/
def pyLower (s : String) : String := String.mk (s.data.map Char.toLower)

/-- Python int() truncation of an exact rational toward zero. -/
def pyTrunc (q : ℚ) : Int := if 0 ≤ q then ⌊q⌋ else ⌈q⌉

/-- The character of a decimal digit. -/
def digitChar (n : Nat) : Char := Char.ofNat (48 + n)

/-- Decimal digits of a natural number, most significant first, driven by
a structural fuel so that it evaluates inside the kernel. -/
def natDigitsAux : Nat → Nat → List Char
  | 0, _ => []
  | fuel + 1, n => if n < 10 then [digitChar n] else
      natDigitsAux fuel (n / 10) ++ [digitChar (n % 10)]

/-- Decimal rendering of a natural number. -/
def natStr (n : Nat) : String := String.mk (natDigitsAux (n + 1) n)

/-- Decimal rendering of an integer. -/
def intStr (n : Int) : String := if n < 0 then "-" ++ natStr (-n).toNat else natStr n.toNat

/-- Zero-pad a (nonnegative) integer to two digits, as strftime %m / %d do. -/
def pad2 (n : Int) : String := if n < 10 then "0" ++ intStr n else intStr n

/-- Zero-pad a (nonnegative) integer to four digits, as strftime %Y does. -/
def pad4 (n : Int) : String :=
  if n < 10 then "000" ++ intStr n
  else if n < 100 then "00" ++ intStr n
  else if n < 1000 then "0" ++ intStr n
  else intStr n

/-- Proleptic Gregorian civil date (year, month, day) of a day count since
1970-01-01, the arithmetic behind SQLite date(ts, unixepoch). -/
def civilFromDays (z0 : Int) : Int × Int × Int :=
  let z := z0 + 719468
  let era := z.fdiv 146097
  let doe := z - era * 146097
  let yoe := (doe - doe.fdiv 1460 + doe.fdiv 36524 - doe.fdiv 146096).fdiv 365
  let y := yoe + era * 400
  let doy := doe - (365 * yoe + yoe.fdiv 4 - yoe.fdiv 100)
  let mp := (5 * doy + 2).fdiv 153
  let d := doy - (153 * mp + 2).fdiv 5 + 1
  let m := mp + (if mp < 10 then 3 else -9)
  (y + (if m ≤ 2 then 1 else 0), m, d)

/-- SQLite date(timestamp, unixepoch): the YYYY-MM-DD string of a unix time. -/
def sqliteDate (ts : Int) : String :=
  let c := civilFromDays (ts.fdiv 86400)
  pad4 c.1 ++ "-" ++ pad2 c.2.1 ++ "-" ++ pad2 c.2.2

/-- SQLite strftime(%Y-%m, ...): the YYYY-MM string of a unix time. -/
def sqliteMonth (ts : Int) : String :=
  let c := civilFromDays (ts.fdiv 86400)
  pad4 c.1 ++ "-" ++ pad2 c.2.1

/-! ## Data model (models.py, init_db) -/

/-- One upstream record as returned by the Scrollscan API: the field values
that the fetcher reads with dict.get, with the same defaults applied for a
missing key. All numeric fields arrive as strings. -/
structure RawTx where
  hash : String := ""
  blockNumber : String := "0"
  timeStamp : String := "0"
  fromAddr : String := ""
  toAddr : String := ""
  value : String := "0"
  gasUsed : String := "0"
  gasPrice : String := "0"
  isError : String := "0"
  tokenSymbol : String := "UNKNOWN"
  tokenName : String := "Unknown Token"
  tokenDecimal : String := "18"
  contractAddress : String := ""
deriving Repr, DecidableEq

/-- A row of the transactions table created by init_db (models.py). -/
structure TxRow where
  walletId : String
  txHash : String
  blockNumber : Int
  timestamp : Int
  fromAddress : String
  toAddress : String
  value : String
  valueDecimal : ℚ
  tokenSymbol : String
  tokenName : String
  tokenDecimals : Int
  contractAddress : String
  txType : String
  direction : String
  category : String := "Uncategorised"
  notes : String := ""
  gasUsed : Int
  gasPrice : String
  isError : Int
deriving Repr, DecidableEq

/-- A row of the balances table created by init_db (models.py). -/
structure BalanceRow where
  walletId : String
  tokenSymbol : String
  tokenName : String
  contractAddress : String
  balance : String
  balanceDecimal : ℚ
  lastUpdated : Int
deriving Repr, DecidableEq

/-- A row of the fetch_log table created by init_db (models.py). -/
structure FetchLogRow where
  walletId : String
  fetchType : String
  lastBlock : Int
  fetchedAt : Int
  txCount : Nat
deriving Repr, DecidableEq

/-- The persistent SQLite state touched by the fetcher: transactions,
balances and fetch_log tables, each as an insertion-ordered list of rows. -/
structure DB where
  transactions : List TxRow := []
  balances : List BalanceRow := []
  fetchLog : List FetchLogRow := []
deriving Repr, DecidableEq

/-- Column list of the transactions table exactly as created by init_db
(models.py lines 52-75). Note: there is no signers column. -/
def transactionsColumns : List String :=
  ["id", "wallet_id", "tx_hash", "block_number", "timestamp", "from_address",
   "to_address", "value", "value_decimal", "token_symbol", "token_name",
   "token_decimals", "contract_address", "tx_type", "direction", "category",
   "notes", "gas_used", "gas_price", "is_error"]

/-- The identity columns of the UNIQUE constraint on transactions:
(tx_hash, wallet_id, tx_type, from_address, to_address, contract_address). -/
def txKey (r : TxRow) : String × String × String × String × String × String :=
  (r.txHash, r.walletId, r.txType, r.fromAddress, r.toAddress, r.contractAddress)

/-- INSERT ... ON CONFLICT DO NOTHING against the UNIQUE constraint: append
the row unless an existing row has the same identity tuple; the Bool is
whether a row was actually inserted (cursor.rowcount). -/
def insertTx (table : List TxRow) (row : TxRow) : List TxRow × Bool :=
  if ∃ r ∈ table, txKey r = txKey row then (table, false) else (table ++ [row], true)

/-- Append a fetch_log row (_record_fetch, fetcher.py lines 74-81). -/
def recordFetch (db : DB) (walletId fetchType : String) (lastBlock : Int)
    (now : Int) (count : Nat) : DB :=
  { db with fetchLog := db.fetchLog ++
      [{ walletId := walletId, fetchType := fetchType, lastBlock := lastBlock,
         fetchedAt := now, txCount := count }] }

/-- Checkpoint read (_get_last_block, fetcher.py lines 63-71): last_block of
the most recently inserted fetch_log row for the wallet and type (rows are
appended with strictly increasing fetched_at), or 0 when there is none. -/
def getLastBlock (db : DB) (walletId fetchType : String) : Int :=
  match db.fetchLog.reverse.find?
      (fun e => e.walletId == walletId && e.fetchType == fetchType) with
  | some e => e.lastBlock
  | none => 0

/-! ## Storing normal (native) transactions (fetcher.py, _store_normal_txs) -/

/-- Direction of a record: out when its sender matches the wallet address
case-insensitively, else in (fetcher.py line 122). -/
def txDirection (addrLower : String) (tx : RawTx) : String :=
  if pyLower tx.fromAddr = addrLower then "out" else "in"

/-- value_decimal for an 18-decimals native transfer: int(value) / 10^18,
defaulting to 0 when the value does not parse (fetcher.py lines 115-120). -/
def valueDecimal18 (value : String) : ℚ :=
  match pyInt value with
  | some v => (v : ℚ) / (10 : ℚ) ^ (18 : ℕ)
  | none => 0

/-- The transactions row built for one normal record (the INSERT argument
tuple, fetcher.py lines 124-151); none models the caught per-record
exception when timeStamp, gasUsed or isError fails to parse, in which case
the record is skipped. -/
def normalRow (walletId addrLower : String) (tx : RawTx) (block : Int) :
    Option TxRow :=
  match pyInt tx.timeStamp, pyInt tx.gasUsed, pyInt tx.isError with
  | some ts, some gu, some ie =>
      some { walletId := walletId, txHash := tx.hash, blockNumber := block,
             timestamp := ts, fromAddress := tx.fromAddr, toAddress := tx.toAddr,
             value := tx.value, valueDecimal := valueDecimal18 tx.value,
             tokenSymbol := "ETH", tokenName := "Ether", tokenDecimals := 18,
             contractAddress := "", txType := "normal",
             direction := txDirection addrLower tx, gasUsed := gu,
             gasPrice := tx.gasPrice, isError := ie }
  | _, _, _ => none

/-- One iteration of the _store_normal_txs loop over (table, max_block,
inserted); none models the uncaught ValueError from int(blockNumber), which
aborts the whole batch. -/
def storeStepNormal (walletId addrLower : String)
    (st : List TxRow × Int × Nat) (tx : RawTx) : Option (List TxRow × Int × Nat) :=
  match pyInt tx.blockNumber with
  | none => none
  | some block =>
      match normalRow walletId addrLower tx block with
      | none => some (st.1, max st.2.1 block, st.2.2)
      | some row =>
          some ((insertTx st.1 row).1, max st.2.1 block,
            st.2.2 + (if (insertTx st.1 row).2 then 1 else 0))

/-- The _store_normal_txs loop over the batch. -/
def storeLoopNormal (walletId addrLower : String) :
    List RawTx → List TxRow × Int × Nat → Option (List TxRow × Int × Nat)
  | [], st => some st
  | tx :: rest, st =>
      match storeStepNormal walletId addrLower st tx with
      | none => none
      | some st' => storeLoopNormal walletId addrLower rest st'

/-- _store_normal_txs (fetcher.py lines 104-164): store a batch of normal
records, then record a fetch_log checkpoint when max_block > 0. Returns the
new state and the inserted count; none models the uncaught abort, after
which the uncommitted connection leaves the database unchanged. -/
def storeNormalTxs (db : DB) (walletId address : String) (txs : List RawTx)
    (now : Int) : Option (DB × Nat) :=
  match storeLoopNormal walletId (pyLower address) txs (db.transactions, 0, 0) with
  | none => none
  | some st =>
      let db' : DB := { db with transactions := st.1 }
      some (if 0 < st.2.1 then recordFetch db' walletId "normal" st.2.1 now st.2.2 else db',
        st.2.2)

/-! ## Storing ERC-20 transactions (fetcher.py, _store_erc20_txs) -/

/-- The transactions row built for one token record (the INSERT argument
tuple, fetcher.py lines 206-233). The is_error column is the literal 0
regardless of the upstream record. none models the caught per-record
exception when timeStamp or gasUsed fails to parse. -/
def erc20Row (walletId addrLower : String) (tx : RawTx) (block decimals : Int) :
    Option TxRow :=
  match pyInt tx.timeStamp, pyInt tx.gasUsed with
  | some ts, some gu =>
      some { walletId := walletId, txHash := tx.hash, blockNumber := block,
             timestamp := ts, fromAddress := tx.fromAddr, toAddress := tx.toAddr,
             value := tx.value,
             valueDecimal :=
               match pyInt tx.value with
               | some v => (v : ℚ) / (10 : ℚ) ^ decimals
               | none => 0,
             tokenSymbol := tx.tokenSymbol, tokenName := tx.tokenName,
             tokenDecimals := decimals, contractAddress := tx.contractAddress,
             txType := "erc20", direction := txDirection addrLower tx,
             gasUsed := gu, gasPrice := tx.gasPrice, isError := 0 }
  | _, _ => none

/-- One iteration of the _store_erc20_txs loop; none models the uncaught
ValueError from int(blockNumber) or int(tokenDecimal), which aborts the
whole batch (fetcher.py lines 194-198 sit outside the try block). -/
def storeStepErc20 (walletId addrLower : String)
    (st : List TxRow × Int × Nat) (tx : RawTx) : Option (List TxRow × Int × Nat) :=
  match pyInt tx.blockNumber, pyInt tx.tokenDecimal with
  | some block, some decimals =>
      (match erc20Row walletId addrLower tx block decimals with
       | none => some (st.1, max st.2.1 block, st.2.2)
       | some row =>
           some ((insertTx st.1 row).1, max st.2.1 block,
             st.2.2 + (if (insertTx st.1 row).2 then 1 else 0)))
  | _, _ => none

/-- The _store_erc20_txs loop over the batch. -/
def storeLoopErc20 (walletId addrLower : String) :
    List RawTx → List TxRow × Int × Nat → Option (List TxRow × Int × Nat)
  | [], st => some st
  | tx :: rest, st =>
      match storeStepErc20 walletId addrLower st tx with
      | none => none
      | some st' => storeLoopErc20 walletId addrLower rest st'

/-- _store_erc20_txs (fetcher.py lines 187-246): store a batch of token
records, then record a fetch_log checkpoint when max_block > 0. -/
def storeErc20Txs (db : DB) (walletId address : String) (txs : List RawTx)
    (now : Int) : Option (DB × Nat) :=
  match storeLoopErc20 walletId (pyLower address) txs (db.transactions, 0, 0) with
  | none => none
  | some st =>
      let db' : DB := { db with transactions := st.1 }
      some (if 0 < st.2.1 then recordFetch db' walletId "erc20" st.2.1 now st.2.2 else db',
        st.2.2)

/-! ## Safe multisig signer enrichment (fetcher.py, fetch_safe_multisig_txs) -/

/-- One confirmation of an executed Safe proposal. -/
structure SafeConfirmation where
  owner : String
deriving Repr, DecidableEq

/-- One executed multisig proposal from the Safe Transaction Service; a
missing transactionHash is the empty string (both are skipped alike). -/
structure SafeTx where
  transactionHash : String
  confirmations : List SafeConfirmation
deriving Repr, DecidableEq

/-- Lexicographic string order, for Python sorted() on addresses. -/
def strLe (a b : String) : Prop := a ≤ b

instance : DecidableRel strLe := fun a b => by unfold strLe; infer_instance

/-- Python sorted() on a list of strings. -/
def pySortedStrings (l : List String) : List String := List.insertionSort strLe l

/-- Executing UPDATE transactions SET signers = ... (fetcher.py line 529)
against the schema of init_db. The target column must exist in the
transactions table; since init_db never creates a signers column, the
statement raises OperationalError (the ok branch is unreachable and the
row type cannot even represent the write, so it returns the matched count
without a change). -/
def execUpdateSigners (db : DB) (walletId txHash signersStr : String) :
    Except String (DB × Nat) :=
  if "signers" ∈ transactionsColumns then
    Except.ok (db,
      (db.transactions.filter (fun r => r.txHash == txHash && r.walletId == walletId)).length)
  else Except.error ("no such column: signers for " ++ signersStr)

/-- fetch_safe_multisig_txs (fetcher.py lines 487-541) after the Safe API
returned the given executed proposals: skip results without a hash or
without confirmations, otherwise UPDATE the signer list to the sorted
comma-joined confirming owners. Any raised exception is caught by the
enclosing try, and the connection is neither committed nor closed, so the
uncommitted work is rolled back and the database is returned unchanged. -/
def fetchSafeMultisigTxs (db : DB) (walletId : String) (results : List SafeTx) : DB :=
  match results.foldlM (fun (st : DB × Nat) tx =>
      if tx.transactionHash == "" then Except.ok st
      else if tx.confirmations.isEmpty then Except.ok st
      else
        let signersStr := String.intercalate ","
          (pySortedStrings (tx.confirmations.map SafeConfirmation.owner))
        (execUpdateSigners st.1 walletId tx.transactionHash signersStr).map
          (fun p => (p.1, st.2 + p.2))) (db, 0) with
  | Except.ok st => st.1
  | Except.error _ => db

/-! ## Balance reconciliation (fetcher.py, _compute_token_balances) -/

/-- Keys of a list in first-occurrence order, as iterating a Python dict
built by insertion visits them. -/
def dedupFirst {α : Type} [DecidableEq α] (l : List α) : List α :=
  l.foldl (fun acc k => if k ∈ acc then acc else acc ++ [k]) []

/-- The UNIQUE(wallet_id, contract_address) key test on a balances row. -/
def balMatch (w c : String) (x : BalanceRow) : Bool :=
  x.walletId == w && x.contractAddress == c

/-- ON CONFLICT(wallet_id, contract_address) DO UPDATE for the balances
table (fetcher.py lines 567-577): overwrite the matching row, or append
when there is none. -/
def upsertBalance (bals : List BalanceRow) (b : BalanceRow) : List BalanceRow :=
  if bals.any (balMatch b.walletId b.contractAddress) then
    bals.map (fun x =>
      if balMatch b.walletId b.contractAddress x then
        { x with tokenSymbol := b.tokenSymbol, tokenName := b.tokenName,
                 balance := b.balance, balanceDecimal := b.balanceDecimal,
                 lastUpdated := b.lastUpdated }
      else x)
  else bals ++ [b]

/-- The WHERE clause of the balance query (fetcher.py lines 550-561):
non-empty contract address, non-error, and the optional wallet filter. -/
def balanceRowFilter (walletFilter : String) (r : TxRow) : Bool :=
  !(r.contractAddress == "") && r.isError == 0 &&
    (walletFilter == "" || r.walletId == walletFilter)

/-- total_in minus total_out of one (wallet, contract) group of the
filtered rows (the SELECT of _compute_token_balances). -/
def balFor (rows : List TxRow) (w c : String) : ℚ :=
  ((rows.filter (fun r => r.walletId == w && r.contractAddress == c)).map
      (fun r => if r.direction == "in" then r.valueDecimal else 0)).sum -
    ((rows.filter (fun r => r.walletId == w && r.contractAddress == c)).map
      (fun r => if r.direction == "out" then r.valueDecimal else 0)).sum

/-- The balances row _compute_token_balances writes for one group key,
taking the representative symbol, name and decimals from the first row of
the group (SQLite exposes some row of the group for the bare columns);
none when the group is empty, which cannot happen for a key of the ledger. -/
def balanceSnapshotFor (rows : List TxRow) (now : Int) (k : String × String) :
    Option BalanceRow :=
  match (rows.filter (fun r => r.walletId == k.1 && r.contractAddress == k.2)).head? with
  | none => none
  | some r0 =>
      some { walletId := k.1, tokenSymbol := r0.tokenSymbol,
             tokenName := r0.tokenName, contractAddress := k.2,
             balance := intStr (pyTrunc (balFor rows k.1 k.2 * (10 : ℚ) ^ r0.tokenDecimals)),
             balanceDecimal := balFor rows k.1 k.2, lastUpdated := now }

/-- One iteration of the _compute_token_balances write loop. -/
def applySnapshot (rows : List TxRow) (now : Int) (db' : DB) (k : String × String) : DB :=
  match balanceSnapshotFor rows now k with
  | none => db'
  | some snap => { db' with balances := upsertBalance db'.balances snap }

/-- _compute_token_balances (fetcher.py lines 544-580): for every
(wallet_id, contract_address) group of the filtered transactions, write the
balance snapshot total_in - total_out. -/
def computeTokenBalances (db : DB) (now : Int) (walletFilter : String) : DB :=
  (dedupFirst ((db.transactions.filter (balanceRowFilter walletFilter)).map
      (fun r => (r.walletId, r.contractAddress)))).foldl
    (applySnapshot (db.transactions.filter (balanceRowFilter walletFilter)) now) db

/-- balance_decimal of the stored snapshot for (wallet, contract), if any. -/
def lookupBalanceDec (db : DB) (w c : String) : Option ℚ :=
  (db.balances.find? (balMatch w c)).map BalanceRow.balanceDecimal

/-- Sum of decimal values of non-error incoming minus non-error outgoing
transactions of one (wallet, contract) pair, read off the raw ledger. -/
def sumInMinusOut (db : DB) (w c : String) : ℚ :=
  ((db.transactions.filter
      (fun r => r.walletId == w && r.contractAddress == c && r.isError == 0)).map
      (fun r => if r.direction == "in" then r.valueDecimal else 0)).sum -
    ((db.transactions.filter
      (fun r => r.walletId == w && r.contractAddress == c && r.isError == 0)).map
      (fun r => if r.direction == "out" then r.valueDecimal else 0)).sum

/-! ## Aggregation engine (app.py) -/

/-- A historical price table row set, as the pre-fetched price_map dict:
(symbol, YYYY-MM-DD date) to price. -/
abbrev PriceMap := List ((String × String) × ℚ)

/-- The current-price dict returned by get_token_prices, symbol to price. -/
abbrev Prices := List (String × ℚ)

/-- The price lookup expression used verbatim by every aggregation
(app.py lines 423, 472, 582): price_map.get((sym, tx_date), prices.get(sym, 0)). -/
def histPrice (pm : PriceMap) (prices : Prices) (sym d : String) : ℚ :=
  match pm.lookup (sym, d) with
  | some p => p
  | none =>
      match prices.lookup sym with
      | some p => p
      | none => 0

/-- Modelled from the spec: the price-resolution rule, historical sample if
present, else current cached price, else zero. Stated separately from
histPrice so the code expression can be compared against it. -/
def resolvedPrice (pm : PriceMap) (prices : Prices) (sym d : String) : ℚ :=
  match pm.lookup (sym, d) with
  | some p => p
  | none =>
      match prices.lookup sym with
      | some p => p
      | none => 0

/-- The SCR price lookup of api_budget_comparison (app.py line 589), whose
current-price fallback default is 1, not 0. -/
def histPriceScrBudget (pm : PriceMap) (prices : Prices) (d : String) : ℚ :=
  match pm.lookup ("SCR", d) with
  | some p => p
  | none =>
      match prices.lookup "SCR" with
      | some p => p
      | none => 1

/-- is_error = 0, the non-error condition shared by every aggregation query. -/
def nonError (r : TxRow) : Bool := r.isError == 0

/-- USD value of one transaction row: decimal amount times the looked-up
price of its symbol at its date (app.py lines 424, 473, 583). -/
def usdValue (pm : PriceMap) (prices : Prices) (r : TxRow) : ℚ :=
  r.valueDecimal * histPrice pm prices r.tokenSymbol (sqliteDate r.timestamp)

/-- The outgoing non-error rows of a wallet (the WHERE clause of the
spending, burn and budget queries, app.py lines 410, 459, 557). -/
def outRows (db : DB) (w : String) : List TxRow :=
  db.transactions.filter
    (fun r => r.walletId == w && r.direction == "out" && nonError r)

/-- One entry of the spending_by_category result (app.py lines 434-442). -/
structure SpendEntry where
  category : String
  tokenSymbol : String
  total : ℚ
  totalUsd : ℚ
  txCount : Nat
deriving Repr, DecidableEq

/-- The Python sort key of app.py line 445:
(0 if category == Uncategorised else 1, -total_usd). -/
def spendKey (e : SpendEntry) : Nat × ℚ :=
  (if e.category == "Uncategorised" then 0 else 1, -e.totalUsd)

/-- Lexicographic order on spend keys, the order list.sort establishes. -/
def spendLe (a b : SpendEntry) : Prop :=
  (spendKey a).1 < (spendKey b).1 ∨
    ((spendKey a).1 = (spendKey b).1 ∧ (spendKey a).2 ≤ (spendKey b).2)

instance : DecidableRel spendLe := fun a b => by unfold spendLe; infer_instance

instance : IsTotal SpendEntry spendLe := by
  constructor
  intro a b
  unfold spendLe
  rcases Nat.lt_trichotomy (spendKey a).1 (spendKey b).1 with h | h | h
  · exact Or.inl (Or.inl h)
  · rcases le_total (spendKey a).2 (spendKey b).2 with h2 | h2
    · exact Or.inl (Or.inr ⟨h, h2⟩)
    · exact Or.inr (Or.inr ⟨h.symm, h2⟩)
  · exact Or.inr (Or.inl h)

instance : IsTrans SpendEntry spendLe := by
  constructor
  intro a b c hab hbc
  unfold spendLe at *
  rcases hab with h1 | ⟨e1, l1⟩
  · rcases hbc with h2 | ⟨e2, _⟩
    · exact Or.inl (h1.trans h2)
    · exact Or.inl (e2 ▸ h1)
  · rcases hbc with h2 | ⟨e2, l2⟩
    · exact Or.inl (e1 ▸ h2)
    · exact Or.inr ⟨e1.trans e2, l1.trans l2⟩

/-- spending.sort of app.py line 445: a stable sort by spendKey. -/
def sortSpending (l : List SpendEntry) : List SpendEntry :=
  List.insertionSort spendLe l

/-- The spending-by-category aggregation of api_stats (app.py lines
401-445): group the outgoing non-error rows by (category, symbol) in
first-occurrence order, sum amount and USD value per group, then sort with
Uncategorised first and the rest by descending USD total. -/
def spendByCategory (db : DB) (w : String) (pm : PriceMap) (prices : Prices) :
    List SpendEntry :=
  let rows := outRows db w
  let keys := dedupFirst (rows.map (fun r => (r.category, r.tokenSymbol)))
  sortSpending (keys.map (fun k =>
    let krows := rows.filter (fun r => r.category == k.1 && r.tokenSymbol == k.2)
    { category := k.1, tokenSymbol := k.2,
      total := (krows.map TxRow.valueDecimal).sum,
      totalUsd := (krows.map (usdValue pm prices)).sum,
      txCount := krows.length }))

/-- One entry of the monthly_burn result (app.py lines 494-502). -/
structure BurnEntry where
  month : String
  tokenSymbol : String
  total : ℚ
  totalUsd : ℚ
  totalScr : ℚ
deriving Repr, DecidableEq

/-- The SCR-equivalent contribution of one row in the monthly burn (app.py
lines 476-482): an SCR row contributes its raw amount; any other row
contributes usd / price when the looked-up SCR price is positive, else 0. -/
def scrContribBurn (pm : PriceMap) (prices : Prices) (r : TxRow) : ℚ :=
  if r.tokenSymbol == "SCR" then r.valueDecimal
  else if 0 < histPrice pm prices "SCR" (sqliteDate r.timestamp) then
    usdValue pm prices r / histPrice pm prices "SCR" (sqliteDate r.timestamp)
  else 0

/-- Ascending order on months, for monthly_burn.sort (app.py line 503). -/
def burnLe (a b : BurnEntry) : Prop := a.month ≤ b.month

instance : DecidableRel burnLe := fun a b => by unfold burnLe; infer_instance

/-- The rows of the burn query: outgoing, non-error, within the trailing
180-day window (app.py lines 449-462). -/
def burnRows (db : DB) (w : String) (now : Int) : List TxRow :=
  db.transactions.filter
    (fun r => r.walletId == w && r.direction == "out" && nonError r &&
      now - 180 * 86400 ≤ r.timestamp)

/-- The monthly-burn aggregation of api_stats (app.py lines 448-503):
group the windowed rows by (month, symbol) in first-occurrence order, sum
amount, USD value and SCR equivalent, then sort ascending by month. -/
def monthlyBurn (db : DB) (w : String) (pm : PriceMap) (prices : Prices)
    (now : Int) : List BurnEntry :=
  let rows := burnRows db w now
  let keys := dedupFirst (rows.map (fun r => (sqliteMonth r.timestamp, r.tokenSymbol)))
  List.insertionSort burnLe (keys.map (fun k =>
    let krows := rows.filter
      (fun r => sqliteMonth r.timestamp == k.1 && r.tokenSymbol == k.2)
    { month := k.1, tokenSymbol := k.2,
      total := (krows.map TxRow.valueDecimal).sum,
      totalUsd := (krows.map (usdValue pm prices)).sum,
      totalScr := (krows.map (scrContribBurn pm prices)).sum }))

/-- The SCR-equivalent contribution of one row in api_budget_comparison
(app.py lines 586-591): as in the burn, but the current-price fallback for
the SCR lookup defaults to 1. -/
def scrContribBudget (pm : PriceMap) (prices : Prices) (r : TxRow) : ℚ :=
  if r.tokenSymbol == "SCR" then r.valueDecimal
  else if 0 < histPriceScrBudget pm prices (sqliteDate r.timestamp) then
    usdValue pm prices r / histPriceScrBudget pm prices (sqliteDate r.timestamp)
  else 0

/-- The (spent_usd, spent_scr) pair api_budget_comparison computes for one
category of a wallet (app.py lines 553-591). -/
def budgetCategorySpent (db : DB) (w cat : String) (pm : PriceMap)
    (prices : Prices) : ℚ × ℚ :=
  let rows := (outRows db w).filter (fun r => r.category == cat)
  ((rows.map (usdValue pm prices)).sum, (rows.map (scrContribBudget pm prices)).sum)

/-! ## Transaction range query pagination (app.py, api_transactions) -/

/-- ORDER BY timestamp DESC on the filtered rows (app.py line 297). -/
def tsDesc (a b : TxRow) : Prop := b.timestamp ≤ a.timestamp

instance : DecidableRel tsDesc := fun a b => by unfold tsDesc; infer_instance

/-- The limit parameter parse of app.py lines 282-285:
min(int(args.get("limit", 100)), 1000), falling back to 100 when int()
raises. -/
def pyParseLimit (limitArg : Option String) : Int :=
  match limitArg with
  | none => min 100 1000
  | some s =>
      match pyInt s with
      | some n => min n 1000
      | none => 100

/-- The offset parameter parse of app.py lines 286-289:
max(int(args.get("offset", 0)), 0), falling back to 0 when int() raises. -/
def pyParseOffset (offsetArg : Option String) : Int :=
  match offsetArg with
  | none => max 0 0
  | some s =>
      match pyInt s with
      | some n => max n 0
      | none => 0

/-- SQLite LIMIT ? OFFSET ? semantics: drop the offset, then a negative
limit places no upper bound while a nonnegative one takes that many rows. -/
def sqliteLimitOffset (rows : List TxRow) (limit offset : Int) : List TxRow :=
  let dropped := rows.drop offset.toNat
  if limit < 0 then dropped else dropped.take limit.toNat

/-- The page of rows api_transactions returns (app.py lines 281-299),
taking the WHERE-filtered row set of the request as input: order by
timestamp descending, then apply the parsed limit and offset. -/
def apiTransactionsPage (rows : List TxRow) (limitArg offsetArg : Option String) :
    List TxRow :=
  sqliteLimitOffset (List.insertionSort tsDesc rows)
    (pyParseLimit limitArg) (pyParseOffset offsetArg)

/-! ## Concrete fixtures used by witnesses and counterexamples -/

/-- A generic stored transaction row. -/
def sampleRow : TxRow :=
  { walletId := "w", txHash := "0xh", blockNumber := 1, timestamp := 0,
    fromAddress := "0xw", toAddress := "0xr", value := "0", valueDecimal := 0,
    tokenSymbol := "ETH", tokenName := "Ether", tokenDecimals := 18,
    contractAddress := "", txType := "normal", direction := "out",
    gasUsed := 0, gasPrice := "0", isError := 0 }

/-- A ledger that already holds the transaction an executed Safe proposal
refers to. -/
def c1Db : DB := { transactions := [sampleRow], balances := [], fetchLog := [] }

/-- One executed Safe proposal for that transaction, with two confirming
owners. -/
def c1Results : List SafeTx :=
  [{ transactionHash := "0xh",
     confirmations := [{ owner := "0xbbb" }, { owner := "0xaaa" }] }]

/-! ## C1: signer enrichment -/

/-- C1: the claim says fetch_safe_multisig_txs sets the signer list of the
matching rows for every executed proposal with a non-empty confirmations
list. The schema created by init_db has no signers column, so the UPDATE
raises OperationalError on the first such proposal, the blanket except
swallows it, and the uncommitted connection changes nothing: here an
executed proposal with confirmations targets an existing row and the
database is returned unchanged, no signer list ever stored. -/
theorem c1_safe_signer_update_never_happens :
    transactionsColumns.contains "signers" = false ∧
    fetchSafeMultisigTxs c1Db "w" c1Results = c1Db ∧
    c1Results.all (fun tx => !tx.confirmations.isEmpty && !(tx.transactionHash == "")) = true ∧
    (c1Db.transactions.map TxRow.txHash).contains "0xh" = true :=
  ⟨by decide, by decide, by decide, by decide⟩

/-! ## C9: pagination cap -/

/-- C9 counterexample: with limit parameter "-1" the parsed limit is -1,
min(-1, 1000) = -1 is passed to SQLite LIMIT, which treats a negative
limit as unbounded, so a 1001-row result set is returned whole: the claim
that at most 1000 rows are returned for every supplied limit is false. -/
theorem c9_counterexample_negative_limit :
    (apiTransactionsPage (List.replicate 1001 sampleRow) (some "-1") none).length = 1001 ∧
    1000 < (apiTransactionsPage (List.replicate 1001 sampleRow) (some "-1") none).length := by
  have hl : pyParseLimit (some "-1") = -1 := by decide
  have ho : pyParseOffset none = 0 := by decide
  have hlen : (apiTransactionsPage (List.replicate 1001 sampleRow) (some "-1") none).length = 1001 := by
    unfold apiTransactionsPage sqliteLimitOffset
    rw [hl, ho]
    rw [if_pos (by norm_num : (-1 : Int) < 0)]
    rw [Int.toNat_zero, List.drop_zero, List.length_insertionSort, List.length_replicate]
  exact ⟨hlen, by rw [hlen]; norm_num⟩

/-- C9 amended: whenever the parsed limit is nonnegative, which includes a
missing or non-numeric limit parameter, the page holds at most 1000 rows;
only a negative numeric limit lifts the cap. -/
theorem c9_page_cap (rows : List TxRow) (limitArg offsetArg : Option String)
    (h : 0 ≤ pyParseLimit limitArg) :
    (apiTransactionsPage rows limitArg offsetArg).length ≤ 1000 := by
  have hub : pyParseLimit limitArg ≤ 1000 := by
    cases limitArg with
    | none => simp [pyParseLimit]
    | some s =>
        cases hp : pyInt s with
        | none => simp [pyParseLimit, hp]
        | some n =>
            simp only [pyParseLimit, hp]
            exact min_le_right n 1000
  unfold apiTransactionsPage sqliteLimitOffset
  rw [if_neg (by omega : ¬ pyParseLimit limitArg < 0)]
  calc (((List.insertionSort tsDesc rows).drop (pyParseOffset offsetArg).toNat).take
          (pyParseLimit limitArg).toNat).length
      ≤ (pyParseLimit limitArg).toNat := List.length_take_le _ _
    _ ≤ 1000 := by omega

/-- C9 witness: the amended cap at a concrete request. -/
theorem c9_page_cap_witness :
    0 ≤ pyParseLimit (some "50") ∧
    (apiTransactionsPage (List.replicate 3 sampleRow) (some "50") none).length ≤ 1000 :=
  ⟨by decide, c9_page_cap (List.replicate 3 sampleRow) (some "50") none (by decide)⟩

/-! ## C10: erc20 rows are stored non-error -/

/-- Fields of a stored erc20 row fixed by construction. -/
lemma erc20Row_fixed_fields (w al : String) (tx : RawTx) (b d : Int) (row : TxRow)
    (h : erc20Row w al tx b d = some row) : row.isError = 0 ∧ row.txType = "erc20" := by
  unfold erc20Row at h
  cases hts : pyInt tx.timeStamp with
  | none => cases hgu : pyInt tx.gasUsed <;> rw [hts, hgu] at h <;> simp at h
  | some ts =>
      cases hgu : pyInt tx.gasUsed with
      | none => rw [hts, hgu] at h; simp at h
      | some gu =>
          rw [hts, hgu] at h
          simp only [Option.some.injEq] at h
          rw [← h]
          exact ⟨rfl, rfl⟩

/-- Any row added by the erc20 store loop has is_error = 0 and type erc20. -/
lemma storeLoopErc20_new_rows (w al : String) :
    ∀ (txs : List RawTx) (T : List TxRow) (mb : Int) (i : Nat)
      (out : List TxRow × Int × Nat),
      storeLoopErc20 w al txs (T, mb, i) = some out →
      ∀ r ∈ out.1, r ∈ T ∨ (r.isError = 0 ∧ r.txType = "erc20") := by
  intro txs
  induction txs with
  | nil =>
      intro T mb i out h r hr
      unfold storeLoopErc20 at h
      simp only [Option.some.injEq] at h
      rw [← h] at hr
      exact Or.inl hr
  | cons tx rest ih =>
      intro T mb i out h r hr
      unfold storeLoopErc20 at h
      cases hstep : storeStepErc20 w al (T, mb, i) tx with
      | none => rw [hstep] at h; simp at h
      | some st' =>
          rw [hstep] at h
          have hmem : ∀ x ∈ st'.1, x ∈ T ∨ (x.isError = 0 ∧ x.txType = "erc20") := by
            unfold storeStepErc20 at hstep
            cases hb : pyInt tx.blockNumber with
            | none =>
                cases hd : pyInt tx.tokenDecimal <;> rw [hb, hd] at hstep <;> simp at hstep
            | some b =>
                cases hd : pyInt tx.tokenDecimal with
                | none => rw [hb, hd] at hstep; simp at hstep
                | some d =>
                    rw [hb, hd] at hstep
                    cases hrow : erc20Row w al tx b d with
                    | none =>
                        simp only [hrow, Option.some.injEq] at hstep
                        rw [← hstep]
                        exact fun x hx => Or.inl hx
                    | some row =>
                        simp only [hrow, Option.some.injEq] at hstep
                        rw [← hstep]
                        unfold insertTx
                        split
                        · exact fun x hx => Or.inl hx
                        · intro x hx
                          rcases List.mem_append.mp hx with hx | hx
                          · exact Or.inl hx
                          · rcases List.mem_singleton.mp hx with rfl
                            exact Or.inr (erc20Row_fixed_fields w al tx b d x hrow)
          rcases ih st'.1 st'.2.1 st'.2.2 out h r hr with h1 | h2
          · exact hmem r h1
          · exact Or.inr h2

/-- C10: every erc20 transfer row is stored with error flag 0 whatever the
upstream record carried, and the non-error condition of reconciliation and
of the spend, burn and budget aggregations is exactly error flag 0, so
every stored erc20 row counts as non-error there. -/
theorem c10_erc20_always_non_error (db : DB) (w a : String) (txs : List RawTx)
    (now : Int) (db' : DB) (n : Nat)
    (h : storeErc20Txs db w a txs now = some (db', n)) :
    (∀ r ∈ db'.transactions, r ∉ db.transactions → r.isError = 0 ∧ r.txType = "erc20") ∧
    (∀ r : TxRow, nonError r = true ↔ r.isError = 0) := by
  constructor
  · unfold storeErc20Txs at h
    cases hloop : storeLoopErc20 w (pyLower a) txs (db.transactions, 0, 0) with
    | none => rw [hloop] at h; simp at h
    | some st =>
        rw [hloop] at h
        simp only [Option.some.injEq, Prod.mk.injEq] at h
        have htx : db'.transactions = st.1 := by
          rw [← h.1]
          by_cases hmb : 0 < st.2.1 <;> simp [hmb, recordFetch]
        intro r hr hnew
        rw [htx] at hr
        rcases storeLoopErc20_new_rows w (pyLower a) txs db.transactions 0 0 st hloop r hr with
          h1 | h2
        · exact absurd h1 hnew
        · exact h2
  · intro r
    simp [nonError]

/-- The erc20 record of the C10 witness; its upstream isError field is "1". -/
def c10Tx : RawTx :=
  { hash := "0xe", blockNumber := "7", timeStamp := "100", fromAddr := "0xS",
    toAddr := "0xw", value := "5", gasUsed := "21000", gasPrice := "2",
    isError := "1", tokenSymbol := "USDC", tokenName := "USD Coin",
    tokenDecimal := "6", contractAddress := "0xc" }

/-- The empty database produced by a fresh init_db. -/
def emptyDb : DB := { transactions := [], balances := [], fetchLog := [] }

/-- C10 witness: storing that record yields a row with error flag 0. -/
theorem c10_erc20_always_non_error_witness :
    ∃ p : DB × Nat, storeErc20Txs emptyDb "w" "0xW" [c10Tx] 0 = some p ∧
      (∀ r ∈ p.1.transactions, r ∉ emptyDb.transactions →
        r.isError = 0 ∧ r.txType = "erc20") := by
  cases hp : storeErc20Txs emptyDb "w" "0xW" [c10Tx] 0 with
  | none => exact absurd hp (by decide)
  | some p =>
      exact ⟨p, rfl, (c10_erc20_always_non_error emptyDb "w" "0xW" [c10Tx] 0 p.1 p.2
        (by rw [hp])).1⟩

/-! ## C2: price resolution -/

/-- C2: in every aggregation the USD value of a transaction is its decimal
amount times the resolved price of (symbol, transaction date), where the
code lookup coincides with the spec rule historical sample, else current
cached price, else zero; with no historical sample but a cached price P the
value is amount times P, and with neither it is zero; the per-entry USD
totals of spend-by-category and of the budget comparison are the sums of
exactly these per-row values. -/
theorem c2_price_resolution :
    (∀ (pm : PriceMap) (prices : Prices) (sym d : String),
        histPrice pm prices sym d = resolvedPrice pm prices sym d)
    ∧ (∀ (pm : PriceMap) (prices : Prices) (r : TxRow) (P : ℚ),
        pm.lookup (r.tokenSymbol, sqliteDate r.timestamp) = none →
        prices.lookup r.tokenSymbol = some P →
        usdValue pm prices r = r.valueDecimal * P)
    ∧ (∀ (pm : PriceMap) (prices : Prices) (r : TxRow),
        pm.lookup (r.tokenSymbol, sqliteDate r.timestamp) = none →
        prices.lookup r.tokenSymbol = none →
        usdValue pm prices r = 0)
    ∧ (∀ (pm : PriceMap) (prices : Prices) (r : TxRow),
        usdValue pm prices r =
          r.valueDecimal * resolvedPrice pm prices r.tokenSymbol (sqliteDate r.timestamp))
    ∧ (∀ (db : DB) (w : String) (pm : PriceMap) (prices : Prices),
        ∀ e ∈ spendByCategory db w pm prices,
          e.totalUsd = (((outRows db w).filter
              (fun r => r.category == e.category && r.tokenSymbol == e.tokenSymbol)).map
            (fun r => r.valueDecimal *
              resolvedPrice pm prices r.tokenSymbol (sqliteDate r.timestamp))).sum)
    ∧ (∀ (db : DB) (w cat : String) (pm : PriceMap) (prices : Prices),
        (budgetCategorySpent db w cat pm prices).1 =
          (((outRows db w).filter (fun r => r.category == cat)).map
            (fun r => r.valueDecimal *
              resolvedPrice pm prices r.tokenSymbol (sqliteDate r.timestamp))).sum) := by
  refine ⟨fun _ _ _ _ => rfl, ?_, ?_, fun _ _ _ => rfl, ?_, fun _ _ _ _ _ => rfl⟩
  · intro pm prices r P h1 h2
    unfold usdValue histPrice
    rw [h1, h2]
  · intro pm prices r h1 h2
    unfold usdValue histPrice
    rw [h1, h2, mul_zero]
  · intro db w pm prices e he
    simp only [spendByCategory] at he
    have he' := (List.perm_insertionSort spendLe _).subset he
    obtain ⟨k, _, rfl⟩ := List.mem_map.mp he'
    rfl

/-- A priced outgoing ETH row for the C2 witness. -/
def c2Row : TxRow := { sampleRow with valueDecimal := 3 }

/-- C2 witness: both fallback branches at concrete inputs. -/
theorem c2_price_resolution_witness :
    usdValue [] [("ETH", (5 : ℚ))] c2Row = c2Row.valueDecimal * 5 ∧
    usdValue [] [] c2Row = 0 :=
  ⟨c2_price_resolution.2.1 [] [("ETH", (5 : ℚ))] c2Row 5 (by decide) (by decide),
   c2_price_resolution.2.2.1 [] [] c2Row (by decide) (by decide)⟩

/-! ## C3: base-asset (SCR) equivalent -/

/-- C3 amended: whenever the resolved SCR price at the transaction date is
positive, the monthly-burn SCR-equivalent contribution of any outgoing row
equals its USD value divided by that price; when it is not positive, a
non-SCR row contributes zero but an SCR-denominated row still contributes
its raw token amount. The budget comparison behaves the same except that
its SCR lookup falls back to 1, not 0, when no current SCR price is
cached. The per-entry SCR totals of both aggregations are the sums of
exactly these per-row contributions. -/
theorem c3_scr_equivalent :
    (∀ (pm : PriceMap) (prices : Prices) (r : TxRow),
        0 < resolvedPrice pm prices "SCR" (sqliteDate r.timestamp) →
        scrContribBurn pm prices r =
          usdValue pm prices r / resolvedPrice pm prices "SCR" (sqliteDate r.timestamp))
    ∧ (∀ (pm : PriceMap) (prices : Prices) (r : TxRow),
        ¬ 0 < resolvedPrice pm prices "SCR" (sqliteDate r.timestamp) →
        r.tokenSymbol ≠ "SCR" → scrContribBurn pm prices r = 0)
    ∧ (∀ (pm : PriceMap) (prices : Prices) (r : TxRow),
        ¬ 0 < resolvedPrice pm prices "SCR" (sqliteDate r.timestamp) →
        r.tokenSymbol = "SCR" → scrContribBurn pm prices r = r.valueDecimal)
    ∧ (∀ (pm : PriceMap) (prices : Prices) (r : TxRow),
        r.tokenSymbol ≠ "SCR" →
        0 < histPriceScrBudget pm prices (sqliteDate r.timestamp) →
        scrContribBudget pm prices r =
          usdValue pm prices r / histPriceScrBudget pm prices (sqliteDate r.timestamp))
    ∧ (∀ (pm : PriceMap) (prices : Prices) (r : TxRow),
        r.tokenSymbol ≠ "SCR" →
        ¬ 0 < histPriceScrBudget pm prices (sqliteDate r.timestamp) →
        scrContribBudget pm prices r = 0)
    ∧ (∀ (pm : PriceMap) (prices : Prices) (r : TxRow),
        r.tokenSymbol = "SCR" → scrContribBudget pm prices r = r.valueDecimal)
    ∧ (∀ (db : DB) (w : String) (pm : PriceMap) (prices : Prices) (now : Int),
        ∀ e ∈ monthlyBurn db w pm prices now,
          e.totalScr = (((burnRows db w now).filter
              (fun r => sqliteMonth r.timestamp == e.month && r.tokenSymbol == e.tokenSymbol)).map
            (scrContribBurn pm prices)).sum)
    ∧ (∀ (db : DB) (w cat : String) (pm : PriceMap) (prices : Prices),
        (budgetCategorySpent db w cat pm prices).2 =
          (((outRows db w).filter (fun r => r.category == cat)).map
            (scrContribBudget pm prices)).sum) := by
  refine ⟨?_, ?_, ?_, ?_, ?_, ?_, ?_, fun _ _ _ _ _ => rfl⟩
  · intro pm prices r h
    have hhr : histPrice = resolvedPrice := rfl
    unfold scrContribBurn
    rw [hhr]
    by_cases hs : r.tokenSymbol = "SCR"
    · rw [if_pos (by simpa using hs)]
      have hu : usdValue pm prices r =
          r.valueDecimal * resolvedPrice pm prices "SCR" (sqliteDate r.timestamp) := by
        unfold usdValue
        rw [hs, hhr]
      rw [hu, mul_div_assoc, div_self (ne_of_gt h), mul_one]
    · rw [if_neg (by simpa using hs), if_pos h]
  · intro pm prices r hnp hs
    have hhr : histPrice = resolvedPrice := rfl
    unfold scrContribBurn
    rw [hhr, if_neg (by simpa using hs), if_neg hnp]
  · intro pm prices r _ hs
    unfold scrContribBurn
    rw [if_pos (by simpa using hs)]
  · intro pm prices r hs hp
    unfold scrContribBudget
    rw [if_neg (by simpa using hs), if_pos hp]
  · intro pm prices r hs hnp
    unfold scrContribBudget
    rw [if_neg (by simpa using hs), if_neg hnp]
  · intro pm prices r hs
    unfold scrContribBudget
    rw [if_pos (by simpa using hs)]
  · intro db w pm prices now e he
    simp only [monthlyBurn] at he
    have he' := (List.perm_insertionSort burnLe _).subset he
    obtain ⟨k, _, rfl⟩ := List.mem_map.mp he'
    rfl

/-- An outgoing SCR-denominated row with no available SCR price. -/
def c3Row : TxRow :=
  { sampleRow with
    txHash := "0xs", tokenSymbol := "SCR", tokenName := "Scroll",
    valueDecimal := 1, contractAddress := "0xscr", txType := "erc20" }

/-- The one-row ledger of the C3 counterexample. -/
def c3Db : DB := { transactions := [c3Row], balances := [], fetchLog := [] }

/-- C3 counterexample: an outgoing SCR transaction on a date with no
historical SCR sample and no cached current price resolves the SCR price
to zero, so the claim says its SCR-equivalent contribution is zero; the
code instead contributes the raw amount 1, as the monthly burn shows. -/
theorem c3_counterexample_scr_zero_price :
    monthlyBurn c3Db "w" [] [] 0 =
      [{ month := "1970-01", tokenSymbol := "SCR", total := 1, totalUsd := 0, totalScr := 1 }] ∧
    resolvedPrice [] [] "SCR" (sqliteDate 0) = 0 ∧
    decide ((1 : ℚ) = 0) = false :=
  ⟨by with_unfolding_all decide, by decide, by decide⟩

/-- An outgoing ETH row for the C3 witness. -/
def c3EthRow : TxRow := { sampleRow with valueDecimal := 2 }

/-- Price samples for the C3 witness: SCR and ETH priced on 1970-01-01. -/
def c3Pm : PriceMap := [(("SCR", "1970-01-01"), 4), (("ETH", "1970-01-01"), 8)]

/-- C3 witness: the amended contribution rule at concrete inputs. -/
theorem c3_scr_equivalent_witness :
    scrContribBurn c3Pm [] c3EthRow =
      usdValue c3Pm [] c3EthRow / resolvedPrice c3Pm [] "SCR" (sqliteDate c3EthRow.timestamp) ∧
    scrContribBurn [] [] c3EthRow = 0 ∧
    scrContribBudget [] [] c3Row = c3Row.valueDecimal :=
  ⟨c3_scr_equivalent.1 c3Pm [] c3EthRow (by decide),
   c3_scr_equivalent.2.1 [] [] c3EthRow (by decide) (by decide),
   c3_scr_equivalent.2.2.2.2.2.1 [] [] c3Row (by decide)⟩

/-! ## C8: spend ordering -/

/-- The three categorised outgoing rows of the C8 example, with totals
A: 50 USD, Uncategorised: 10 USD, B: 80 USD at price 1. -/
def c8RowA : TxRow :=
  { sampleRow with txHash := "0xa", category := "A", tokenSymbol := "USDC", valueDecimal := 50 }

/-- The Uncategorised row of the C8 example. -/
def c8RowU : TxRow :=
  { sampleRow with
    txHash := "0xu", category := "Uncategorised", tokenSymbol := "USDC",
    valueDecimal := 10 }

/-- The B row of the C8 example. -/
def c8RowB : TxRow :=
  { sampleRow with txHash := "0xb", category := "B", tokenSymbol := "USDC", valueDecimal := 80 }

/-- The ledger of the C8 example. -/
def c8Db : DB := { transactions := [c8RowA, c8RowU, c8RowB], balances := [], fetchLog := [] }

/-- C8: in the spend-by-category result every Uncategorised entry precedes
every other entry regardless of USD value, and the remaining entries are in
descending USD order; on the example with totals A 50, Uncategorised 10,
B 80, the category order is Uncategorised, B, A. -/
theorem c8_uncategorised_first :
    (∀ (db : DB) (w : String) (pm : PriceMap) (prices : Prices),
      List.Pairwise (fun a b : SpendEntry =>
          a.category ≠ "Uncategorised" →
            b.category ≠ "Uncategorised" ∧ b.totalUsd ≤ a.totalUsd)
        (spendByCategory db w pm prices))
    ∧ (spendByCategory c8Db "w" [] [("USDC", (1 : ℚ))]).map SpendEntry.category =
        ["Uncategorised", "B", "A"] := by
  constructor
  · intro db w pm prices
    have hs : List.Sorted spendLe (spendByCategory db w pm prices) :=
      List.sorted_insertionSort spendLe _
    refine hs.imp ?_
    intro a b hab ha
    have hka : (spendKey a).1 = 1 := by simp [spendKey, ha]
    rcases hab with hlt | ⟨heq, hle⟩
    · exfalso
      have hb1 : (spendKey b).1 ≤ 1 := by unfold spendKey; split <;> omega
      omega
    · have hkb : (spendKey b).1 = 1 := by omega
      constructor
      · intro hb
        have : (spendKey b).1 = 0 := by simp [spendKey, hb]
        omega
      · have hle' : -a.totalUsd ≤ -b.totalUsd := hle
        exact neg_le_neg_iff.mp hle'
  · with_unfolding_all decide

/-- C8 witness: the ordering property at the concrete example ledger. -/
theorem c8_uncategorised_first_witness :
    List.Pairwise (fun a b : SpendEntry =>
        a.category ≠ "Uncategorised" →
          b.category ≠ "Uncategorised" ∧ b.totalUsd ≤ a.totalUsd)
      (spendByCategory c8Db "w" [] [("USDC", (1 : ℚ))]) :=
  c8_uncategorised_first.1 c8Db "w" [] [("USDC", (1 : ℚ))]

/-! ## C4: ingestion idempotence -/

/-- An unparsable block number makes the step raise. -/
lemma storeStepNormal_none (w al : String) (st : List TxRow × Int × Nat) (tx : RawTx)
    (hb : pyInt tx.blockNumber = none) : storeStepNormal w al st tx = none := by
  unfold storeStepNormal
  rw [hb]

/-- A record whose row construction fails is skipped. -/
lemma storeStepNormal_skip (w al : String) (T : List TxRow) (mb : Int) (i : Nat)
    (tx : RawTx) (b : Int) (hb : pyInt tx.blockNumber = some b)
    (hrow : normalRow w al tx b = none) :
    storeStepNormal w al (T, mb, i) tx = some (T, max mb b, i) := by
  unfold storeStepNormal
  simp only [hb, hrow]

/-- A record whose identity tuple is new is appended and counted. -/
lemma storeStepNormal_insert (w al : String) (T : List TxRow) (mb : Int) (i : Nat)
    (tx : RawTx) (b : Int) (row : TxRow) (hb : pyInt tx.blockNumber = some b)
    (hrow : normalRow w al tx b = some row)
    (hnew : ¬ ∃ r ∈ T, txKey r = txKey row) :
    storeStepNormal w al (T, mb, i) tx = some (T ++ [row], max mb b, i + 1) := by
  have hins : insertTx T row = (T ++ [row], true) := by
    unfold insertTx
    rw [if_neg hnew]
  unfold storeStepNormal
  simp only [hb, hrow, hins]
  simp

/-- A record whose identity tuple already exists is a silent no-op. -/
lemma storeStepNormal_conflict (w al : String) (T : List TxRow) (mb : Int) (i : Nat)
    (tx : RawTx) (b : Int) (row : TxRow) (hb : pyInt tx.blockNumber = some b)
    (hrow : normalRow w al tx b = some row)
    (hconf : ∃ r ∈ T, txKey r = txKey row) :
    storeStepNormal w al (T, mb, i) tx = some (T, max mb b, i) := by
  have hins : insertTx T row = (T, false) := by
    unfold insertTx
    rw [if_pos hconf]
  unfold storeStepNormal
  simp only [hb, hrow, hins]
  simp

/-- The store loop only appends rows: its output table extends its input. -/
lemma storeLoopNormal_extends (w al : String) :
    ∀ (txs : List RawTx) (T : List TxRow) (mb : Int) (i : Nat)
      (out : List TxRow × Int × Nat),
      storeLoopNormal w al txs (T, mb, i) = some out → ∃ E, out.1 = T ++ E := by
  intro txs
  induction txs with
  | nil =>
      intro T mb i out h
      unfold storeLoopNormal at h
      simp only [Option.some.injEq] at h
      exact ⟨[], by rw [← h]; simp⟩
  | cons tx rest ih =>
      intro T mb i out h
      unfold storeLoopNormal at h
      cases hb : pyInt tx.blockNumber with
      | none => rw [storeStepNormal_none w al (T, mb, i) tx hb] at h; simp at h
      | some b =>
          cases hrow : normalRow w al tx b with
          | none =>
              rw [storeStepNormal_skip w al T mb i tx b hb hrow] at h
              exact ih T (max mb b) i out h
          | some row =>
              by_cases hconf : ∃ r ∈ T, txKey r = txKey row
              · rw [storeStepNormal_conflict w al T mb i tx b row hb hrow hconf] at h
                exact ih T (max mb b) i out h
              · rw [storeStepNormal_insert w al T mb i tx b row hb hrow hconf] at h
                obtain ⟨E, hE⟩ := ih (T ++ [row]) (max mb b) (i + 1) out h
                exact ⟨row :: E, by rw [hE, List.append_assoc]; rfl⟩

/-- Rerunning the store loop on a table that already contains its own
output inserts nothing and reproduces the same table and max block. -/
lemma storeLoopNormal_rerun (w al : String) :
    ∀ (txs : List RawTx) (T : List TxRow) (mb : Int) (i : Nat)
      (T' : List TxRow) (mb' : Int) (i' j : Nat),
      storeLoopNormal w al txs (T, mb, i) = some (T', mb', i') →
      storeLoopNormal w al txs (T', mb, j) = some (T', mb', j) := by
  intro txs
  induction txs with
  | nil =>
      intro T mb i T' mb' i' j h
      unfold storeLoopNormal at h ⊢
      simp only [Option.some.injEq, Prod.mk.injEq] at h
      rw [← h.1, ← h.2.1]
  | cons tx rest ih =>
      intro T mb i T' mb' i' j h
      unfold storeLoopNormal at h ⊢
      cases hb : pyInt tx.blockNumber with
      | none => rw [storeStepNormal_none w al (T, mb, i) tx hb] at h; simp at h
      | some b =>
          cases hrow : normalRow w al tx b with
          | none =>
              rw [storeStepNormal_skip w al T mb i tx b hb hrow] at h
              rw [storeStepNormal_skip w al T' mb j tx b hb hrow]
              exact ih T (max mb b) i T' mb' i' j h
          | some row =>
              by_cases hconf : ∃ r ∈ T, txKey r = txKey row
              · rw [storeStepNormal_conflict w al T mb i tx b row hb hrow hconf] at h
                obtain ⟨E, hE⟩ := storeLoopNormal_extends w al rest T (max mb b) i
                  (T', mb', i') h
                have hE' : T' = T ++ E := hE
                have hconf' : ∃ r ∈ T', txKey r = txKey row := by
                  obtain ⟨r, hr, hk⟩ := hconf
                  exact ⟨r, by rw [hE']; exact List.mem_append_left E hr, hk⟩
                rw [storeStepNormal_conflict w al T' mb j tx b row hb hrow hconf']
                exact ih T (max mb b) i T' mb' i' j h
              · rw [storeStepNormal_insert w al T mb i tx b row hb hrow hconf] at h
                obtain ⟨E, hE⟩ := storeLoopNormal_extends w al rest (T ++ [row]) (max mb b)
                  (i + 1) (T', mb', i') h
                have hE' : T' = T ++ [row] ++ E := hE
                have hconf' : ∃ r ∈ T', txKey r = txKey row := by
                  refine ⟨row, ?_, rfl⟩
                  rw [hE']
                  exact List.mem_append_left E (List.mem_append_right T (List.mem_singleton_self row))
                rw [storeStepNormal_conflict w al T' mb j tx b row hb hrow hconf']
                exact ih (T ++ [row]) (max mb b) (i + 1) T' mb' i' j h

/-- The checkpoint read back right after _record_fetch is the recorded
block. -/
lemma getLastBlock_recordFetch (db : DB) (w t : String) (lb now : Int) (c : Nat) :
    getLastBlock (recordFetch db w t lb now c) w t = lb := by
  unfold getLastBlock recordFetch
  simp [List.reverse_append, List.find?]

/-- C4: rerunning _store_normal_txs on the identical batch inserts nothing,
leaves every transaction row unchanged, and leaves the checkpoint read by
_get_last_block unchanged; a conflicting insert on the identity tuple
(hash, wallet, type, from, to, contract) is a silent no-op. -/
theorem c4_ingestion_idempotent (db : DB) (w a : String) (txs : List RawTx)
    (now now2 : Int) (db1 : DB) (n : Nat)
    (h : storeNormalTxs db w a txs now = some (db1, n)) :
    (∃ db2, storeNormalTxs db1 w a txs now2 = some (db2, 0) ∧
      db2.transactions = db1.transactions ∧
      getLastBlock db2 w "normal" = getLastBlock db1 w "normal") ∧
    (∀ (table : List TxRow) (row : TxRow),
      (∃ r ∈ table, txKey r = txKey row) → insertTx table row = (table, false)) := by
  refine ⟨?_, fun table row hc => by unfold insertTx; rw [if_pos hc]⟩
  unfold storeNormalTxs at h
  cases hloop : storeLoopNormal w (pyLower a) txs (db.transactions, 0, 0) with
  | none => rw [hloop] at h; simp at h
  | some st =>
      rw [hloop] at h
      simp only [Option.some.injEq, Prod.mk.injEq] at h
      obtain ⟨hdb1, _⟩ := h
      have htx : db1.transactions = st.1 := by
        rw [← hdb1]
        by_cases hmb : 0 < st.2.1 <;> simp [hmb, recordFetch]
      have hrr : storeLoopNormal w (pyLower a) txs (st.1, 0, 0) = some (st.1, st.2.1, 0) :=
        storeLoopNormal_rerun w (pyLower a) txs db.transactions 0 0 st.1 st.2.1 st.2.2 0 hloop
      refine ⟨if 0 < st.2.1 then recordFetch db1 w "normal" st.2.1 now2 0 else db1, ?_, ?_, ?_⟩
      · unfold storeNormalTxs
        have hloop2 : storeLoopNormal w (pyLower a) txs (db1.transactions, 0, 0) =
            some (st.1, st.2.1, 0) := by
          rw [htx]
          exact hrr
        rw [hloop2]
        have heta : ({ db1 with transactions := st.1 } : DB) = db1 := by rw [← htx]
        by_cases hmb : 0 < st.2.1 <;> simp only [hmb, if_true, if_false, heta]
      · by_cases hmb : 0 < st.2.1
        · rw [if_pos hmb]
          exact htx.symm ▸ rfl
        · rw [if_neg hmb]
      · by_cases hmb : 0 < st.2.1
        · rw [if_pos hmb, getLastBlock_recordFetch, ← hdb1, if_pos hmb,
            getLastBlock_recordFetch]
        · rw [if_neg hmb]

/-- A well-formed upstream normal record for the C4 witness. -/
def c4Tx : RawTx :=
  { hash := "0xn", blockNumber := "5", timeStamp := "50", fromAddr := "0xA",
    toAddr := "0xw", value := "1000000000000000000", gasUsed := "21000",
    gasPrice := "3", isError := "0" }

/-- C4 witness: storing the batch twice at a concrete input. -/
theorem c4_ingestion_idempotent_witness :
    ∃ p : DB × Nat, storeNormalTxs emptyDb "w" "0xA" [c4Tx] 0 = some p ∧
      ∃ db2, storeNormalTxs p.1 "w" "0xA" [c4Tx] 1 = some (db2, 0) ∧
        db2.transactions = p.1.transactions ∧
        getLastBlock db2 "w" "normal" = getLastBlock p.1 "w" "normal" := by
  cases hp : storeNormalTxs emptyDb "w" "0xA" [c4Tx] 0 with
  | none => exact absurd hp (by decide)
  | some p =>
      exact ⟨p, rfl,
        (c4_ingestion_idempotent emptyDb "w" "0xA" [c4Tx] 0 1 p.1 p.2 (by rw [hp])).1⟩

/-! ## C5: checkpoint monotonicity -/

/-- One whole fetch run for the normal feed after the connector returned
txs: fetch_normal_transactions stores the batch; when the store raises, the
connection is never committed, so the database keeps its previous state. A
connector-level failure surfaces as the empty batch (_api_get returns []). -/
def runNormalFetch (db : DB) (w a : String) (txs : List RawTx) (now : Int) : DB :=
  match storeNormalTxs db w a txs now with
  | some p => p.1
  | none => db

/-- A sequence of fetch runs, each with its batch and wall-clock time. -/
def runSeq (w a : String) : DB → List (List RawTx × Int) → DB
  | db, [] => db
  | db, b :: rest => runSeq w a (runNormalFetch db w a b.1 b.2) rest

/-- The connector contract along a run sequence: every record of each batch
has a parsable block number at least the checkpoint the batch was requested
from (the fetch queries startblock = checkpoint). -/
def goodSeq (w a : String) : DB → List (List RawTx × Int) → Prop
  | _, [] => True
  | db, b :: rest =>
      (∀ tx ∈ b.1, ∃ n, pyInt tx.blockNumber = some n ∧
        getLastBlock db w "normal" ≤ n) ∧
      goodSeq w a (runNormalFetch db w a b.1 b.2) rest

/-- The running max_block of a batch, seeded like the store loop. -/
def maxBlockFold (mb : Int) (txs : List RawTx) : Int :=
  txs.foldl (fun m tx => max m ((pyInt tx.blockNumber).getD 0)) mb

/-- Unfolding maxBlockFold one record. -/
lemma maxBlockFold_cons (mb : Int) (tx : RawTx) (txs : List RawTx) :
    maxBlockFold mb (tx :: txs) =
      maxBlockFold (max mb ((pyInt tx.blockNumber).getD 0)) txs := rfl

/-- The running max never drops below its seed. -/
lemma le_maxBlockFold : ∀ (txs : List RawTx) (mb : Int), mb ≤ maxBlockFold mb txs := by
  intro txs
  induction txs with
  | nil => intro mb; exact le_refl mb
  | cons tx rest ih =>
      intro mb
      rw [maxBlockFold_cons]
      exact le_trans (le_max_left mb _) (ih _)

/-- The running max dominates every member block. -/
lemma maxBlockFold_mem : ∀ (txs : List RawTx) (mb : Int) (tx : RawTx), tx ∈ txs →
    (pyInt tx.blockNumber).getD 0 ≤ maxBlockFold mb txs := by
  intro txs
  induction txs with
  | nil => intro mb tx htx; exact absurd htx (List.not_mem_nil tx)
  | cons t rest ih =>
      intro mb tx htx
      rw [maxBlockFold_cons]
      rcases List.mem_cons.mp htx with rfl | htx
      · exact le_trans (le_max_right mb _) (le_maxBlockFold rest _)
      · exact ih _ tx htx

/-- When every block number of the batch parses, the store loop succeeds
and its max-block coordinate is the running max of the batch. -/
lemma storeLoopNormal_success (w al : String) :
    ∀ (txs : List RawTx) (T : List TxRow) (mb : Int) (i : Nat),
      (∀ tx ∈ txs, pyInt tx.blockNumber ≠ none) →
      ∃ T' i', storeLoopNormal w al txs (T, mb, i) = some (T', maxBlockFold mb txs, i') := by
  intro txs
  induction txs with
  | nil => intro T mb i _; exact ⟨T, i, rfl⟩
  | cons tx rest ih =>
      intro T mb i hp
      have hb : ∃ b, pyInt tx.blockNumber = some b := by
        cases hx : pyInt tx.blockNumber with
        | none => exact absurd hx (hp tx (List.mem_cons_self tx rest))
        | some b => exact ⟨b, rfl⟩
      obtain ⟨b, hb⟩ := hb
      have hmbc : maxBlockFold mb (tx :: rest) = maxBlockFold (max mb b) rest := by
        rw [maxBlockFold_cons, hb]
        rfl
      have hrest : ∀ t ∈ rest, pyInt t.blockNumber ≠ none :=
        fun t ht => hp t (List.mem_cons_of_mem tx ht)
      rw [hmbc]
      unfold storeLoopNormal
      cases hrow : normalRow w al tx b with
      | none =>
          rw [storeStepNormal_skip w al T mb i tx b hb hrow]
          exact ih T (max mb b) i hrest
      | some row =>
          by_cases hconf : ∃ r ∈ T, txKey r = txKey row
          · rw [storeStepNormal_conflict w al T mb i tx b row hb hrow hconf]
            exact ih T (max mb b) i hrest
          · rw [storeStepNormal_insert w al T mb i tx b row hb hrow hconf]
            exact ih (T ++ [row]) (max mb b) (i + 1) hrest

/-- C5: an empty (or connector-failed) batch changes nothing; a non-empty
batch whose blocks all parse and sit at or above the current checkpoint
sets the checkpoint to the maximum block observed in the batch, never
below the previous value; along any sequence of such runs the checkpoint
read back by _get_last_block is non-decreasing. -/
theorem c5_checkpoint_monotonic :
    (∀ (db : DB) (w a : String) (now : Int), runNormalFetch db w a [] now = db)
    ∧ (∀ (db : DB) (w a : String) (txs : List RawTx) (now : Int), txs ≠ [] →
        (∀ tx ∈ txs, ∃ n, pyInt tx.blockNumber = some n ∧
          getLastBlock db w "normal" ≤ n) →
        0 ≤ getLastBlock db w "normal" →
        getLastBlock (runNormalFetch db w a txs now) w "normal" = maxBlockFold 0 txs ∧
        getLastBlock db w "normal" ≤
          getLastBlock (runNormalFetch db w a txs now) w "normal")
    ∧ (∀ (w a : String) (batches : List (List RawTx × Int)) (db : DB),
        goodSeq w a db batches → 0 ≤ getLastBlock db w "normal" →
        getLastBlock db w "normal" ≤ getLastBlock (runSeq w a db batches) w "normal") := by
  have hempty : ∀ (db : DB) (w a : String) (now : Int), runNormalFetch db w a [] now = db :=
    fun db w a now => rfl
  have hstep : ∀ (db : DB) (w a : String) (txs : List RawTx) (now : Int), txs ≠ [] →
      (∀ tx ∈ txs, ∃ n, pyInt tx.blockNumber = some n ∧
        getLastBlock db w "normal" ≤ n) →
      0 ≤ getLastBlock db w "normal" →
      getLastBlock (runNormalFetch db w a txs now) w "normal" = maxBlockFold 0 txs ∧
      getLastBlock db w "normal" ≤
        getLastBlock (runNormalFetch db w a txs now) w "normal" := by
    intro db w a txs now hne hb h0
    have hparse : ∀ tx ∈ txs, pyInt tx.blockNumber ≠ none := by
      intro tx htx hnone
      obtain ⟨n, hn, _⟩ := hb tx htx
      rw [hn] at hnone
      exact Option.noConfusion hnone
    obtain ⟨T', i', hloop⟩ :=
      storeLoopNormal_success w (pyLower a) txs db.transactions 0 0 hparse
    have hcle : getLastBlock db w "normal" ≤ maxBlockFold 0 txs := by
      cases txs with
      | nil => exact absurd rfl hne
      | cons t rest =>
          obtain ⟨n, hn, hcn⟩ := hb t (List.mem_cons_self t rest)
          have := maxBlockFold_mem (t :: rest) 0 t (List.mem_cons_self t rest)
          rw [hn] at this
          exact le_trans hcn this
    have hrun : runNormalFetch db w a txs now =
        (if 0 < maxBlockFold 0 txs then
          recordFetch { db with transactions := T' } w "normal" (maxBlockFold 0 txs) now i'
        else { db with transactions := T' }) := by
      unfold runNormalFetch storeNormalTxs
      rw [hloop]
    rw [hrun]
    by_cases hmb : 0 < maxBlockFold 0 txs
    · rw [if_pos hmb, getLastBlock_recordFetch]
      exact ⟨rfl, hcle⟩
    · rw [if_neg hmb]
      have hM0 : maxBlockFold 0 txs = 0 :=
        le_antisymm (not_lt.mp hmb) (le_maxBlockFold txs 0)
      have hc0 : getLastBlock db w "normal" = 0 :=
        le_antisymm (hM0 ▸ hcle) h0
      have hsame : getLastBlock ({ db with transactions := T' } : DB) w "normal" =
          getLastBlock db w "normal" := rfl
      rw [hsame, hc0, hM0]
      exact ⟨rfl, le_refl 0⟩
  refine ⟨hempty, hstep, ?_⟩
  intro w a batches
  induction batches with
  | nil => intro db _ _; exact le_refl _
  | cons b rest ih =>
      intro db hg h0
      obtain ⟨hb, hrest⟩ := hg
      by_cases hni : b.1 = []
      · have hrw : runNormalFetch db w a b.1 b.2 = db := by rw [hni]; exact hempty db w a b.2
        rw [hrw] at hrest
        have : getLastBlock db w "normal" ≤
            getLastBlock (runSeq w a (runNormalFetch db w a b.1 b.2) rest) w "normal" := by
          rw [hrw]
          exact ih db hrest h0
        exact this
      · obtain ⟨heq, hle⟩ := hstep db w a b.1 b.2 hni hb h0
        have h0' : 0 ≤ getLastBlock (runNormalFetch db w a b.1 b.2) w "normal" :=
          le_trans h0 hle
        exact le_trans hle (ih (runNormalFetch db w a b.1 b.2) hrest h0')

/-- C5 witness: a two-run sequence, one real batch then a failed (empty)
batch, keeps the checkpoint non-decreasing. -/
theorem c5_checkpoint_monotonic_witness :
    getLastBlock emptyDb "w" "normal" ≤
      getLastBlock (runSeq "w" "0xA" emptyDb [([c4Tx], 0), ([], 1)]) "w" "normal" :=
  c5_checkpoint_monotonic.2.2 "w" "0xA" [([c4Tx], 0), ([], 1)] emptyDb
    ⟨by
        intro tx htx
        rcases List.mem_singleton.mp htx with rfl
        exact ⟨5, by decide, by decide⟩,
      fun tx htx => absurd htx (List.not_mem_nil tx),
      trivial⟩
    (by decide)

/-! ## C7: malformed upstream records -/

/-- Any record with an unparsable block number aborts the whole loop. -/
lemma storeLoopNormal_abort (w al : String) :
    ∀ (txs : List RawTx) (st : List TxRow × Int × Nat),
      (∃ tx ∈ txs, pyInt tx.blockNumber = none) →
      storeLoopNormal w al txs st = none := by
  intro txs
  induction txs with
  | nil =>
      intro st h
      obtain ⟨tx, htx, _⟩ := h
      exact absurd htx (List.not_mem_nil tx)
  | cons t rest ih =>
      intro st h
      unfold storeLoopNormal
      obtain ⟨tx, htx, hn⟩ := h
      rcases List.mem_cons.mp htx with rfl | htx
      · rw [storeStepNormal_none w al st tx hn]
      · cases hstep : storeStepNormal w al st t with
        | none => rfl
        | some st' => exact ih st' ⟨tx, htx, hn⟩

/-- A batch with an unparsable timestamp: the record is dropped while the
surrounding run survives; here block 5 still advances the checkpoint. -/
def c7BadTsTx : RawTx := { hash := "0x2", blockNumber := "5", timeStamp := "oops" }

/-- A batch with an unparsable block number: the whole store aborts. -/
def c7BadBlockTx : RawTx := { hash := "0x1", blockNumber := "abc" }

/-- A record whose raw value does not parse but whose other fields do. -/
def c7BadValueTx : RawTx := { hash := "0x3", blockNumber := "5", value := "zzz" }

/-- C7 counterexample: the claim says a decode failure on any numeric field
defaults that field to zero and never drops the record or aborts the batch.
In fact an unparsable blockNumber raises out of the loop and nothing is
stored, and an unparsable timeStamp makes the insert raise, so that record
is skipped: after the run the transaction table does not contain it. -/
theorem c7_counterexample_malformed_records :
    storeNormalTxs emptyDb "w" "0xA" [c7BadBlockTx] 0 = none ∧
    storeNormalTxs emptyDb "w" "0xA" [c7BadTsTx] 0 =
      some ({ transactions := [], balances := [],
              fetchLog := [{ walletId := "w", fetchType := "normal", lastBlock := 5,
                             fetchedAt := 0, txCount := 0 }] }, 0) :=
  ⟨by decide, by decide⟩

/-- C7 amended: only the raw value field defaults to zero on decode failure
with the record still inserted; a record whose timeStamp, gasUsed or
isError fails to parse is skipped while the batch continues; an unparsable
blockNumber raises and aborts the whole batch, which is left unstored. -/
theorem c7_decode_failures (w al : String) :
    (∀ (tx : RawTx) (block : Int),
        pyInt tx.timeStamp ≠ none → pyInt tx.gasUsed ≠ none → pyInt tx.isError ≠ none →
        ∃ row, normalRow w al tx block = some row ∧
          (pyInt tx.value = none → row.valueDecimal = 0))
    ∧ (∀ (tx : RawTx) (block : Int),
        pyInt tx.timeStamp = none ∨ pyInt tx.gasUsed = none ∨ pyInt tx.isError = none →
        normalRow w al tx block = none)
    ∧ (∀ (db : DB) (a : String) (tx : RawTx) (now b : Int),
        pyInt tx.blockNumber = some b → normalRow w (pyLower a) tx b = none →
        ∃ db', storeNormalTxs db w a [tx] now = some (db', 0) ∧
          db'.transactions = db.transactions)
    ∧ (∀ (db : DB) (a : String) (txs : List RawTx) (now : Int) (tx : RawTx),
        tx ∈ txs → pyInt tx.blockNumber = none →
        storeNormalTxs db w a txs now = none) := by
  refine ⟨?_, ?_, ?_, ?_⟩
  · intro tx block h1 h2 h3
    cases hts : pyInt tx.timeStamp with
    | none => exact absurd hts h1
    | some ts =>
        cases hgu : pyInt tx.gasUsed with
        | none => exact absurd hgu h2
        | some gu =>
            cases hie : pyInt tx.isError with
            | none => exact absurd hie h3
            | some ie =>
                obtain ⟨row, hrow⟩ : ∃ row, normalRow w al tx block = some row := by
                  unfold normalRow
                  rw [hts, hgu, hie]
                  exact ⟨_, rfl⟩
                refine ⟨row, hrow, ?_⟩
                intro hv
                unfold normalRow at hrow
                rw [hts, hgu, hie] at hrow
                simp only [Option.some.injEq] at hrow
                rw [← hrow]
                show valueDecimal18 tx.value = 0
                unfold valueDecimal18
                rw [hv]
  · intro tx block h
    unfold normalRow
    cases hts : pyInt tx.timeStamp with
    | none => cases hgu : pyInt tx.gasUsed <;> cases hie : pyInt tx.isError <;> simp
    | some ts =>
        cases hgu : pyInt tx.gasUsed with
        | none => cases hie : pyInt tx.isError <;> simp
        | some gu =>
            cases hie : pyInt tx.isError with
            | none => simp
            | some ie =>
                exfalso
                rcases h with h | h | h
                · rw [h] at hts; exact Option.noConfusion hts
                · rw [h] at hgu; exact Option.noConfusion hgu
                · rw [h] at hie; exact Option.noConfusion hie
  · intro db a tx now b hb hrow
    have hloop : storeLoopNormal w (pyLower a) [tx] (db.transactions, 0, 0) =
        some (db.transactions, max 0 b, 0) := by
      unfold storeLoopNormal
      rw [storeStepNormal_skip w (pyLower a) db.transactions 0 0 tx b hb hrow]
      rfl
    refine ⟨if 0 < max 0 b then
        recordFetch db w "normal" (max 0 b) now 0 else db, ?_, ?_⟩
    · unfold storeNormalTxs
      rw [hloop]
    · by_cases hmb : 0 < max 0 b <;> simp [hmb, recordFetch]
  · intro db a txs now tx htx hn
    unfold storeNormalTxs
    rw [storeLoopNormal_abort w (pyLower a) txs (db.transactions, 0, 0) ⟨tx, htx, hn⟩]

/-- C7 witness: the three amended behaviours at concrete records. -/
theorem c7_decode_failures_witness :
    (∃ row, normalRow "w" "0xa" c7BadValueTx 5 = some row ∧
      (pyInt c7BadValueTx.value = none → row.valueDecimal = 0)) ∧
    (∃ db', storeNormalTxs emptyDb "w" "0xA" [c7BadTsTx] 0 = some (db', 0) ∧
      db'.transactions = emptyDb.transactions) ∧
    storeNormalTxs emptyDb "w" "0xA" [c7BadBlockTx] 0 = none :=
  ⟨(c7_decode_failures "w" "0xa").1 c7BadValueTx 5 (by decide) (by decide) (by decide),
   (c7_decode_failures "w" "0xa").2.2.1 emptyDb "0xA" c7BadTsTx 0 5 (by decide) (by decide),
   (c7_decode_failures "w" "0xa").2.2.2 emptyDb "0xA" [c7BadBlockTx] 0 c7BadBlockTx
     (by decide) (by decide)⟩

/-! ## C6: balance reconciliation -/

/-- Membership of the first-occurrence dedup fold. -/
lemma dedupFirst_mem_foldl {α : Type} [DecidableEq α] :
    ∀ (l acc : List α) (a : α),
      (a ∈ l.foldl (fun acc k => if k ∈ acc then acc else acc ++ [k]) acc) ↔
        a ∈ acc ∨ a ∈ l := by
  intro l
  induction l with
  | nil => intro acc a; simp
  | cons k rest ih =>
      intro acc a
      rw [List.foldl_cons, ih]
      by_cases hk : k ∈ acc
      · rw [if_pos hk]
        constructor
        · intro h
          rcases h with h | h
          · exact Or.inl h
          · exact Or.inr (List.mem_cons_of_mem k h)
        · intro h
          rcases h with h | h
          · exact Or.inl h
          · rcases List.mem_cons.mp h with rfl | h
            · exact Or.inl hk
            · exact Or.inr h
      · rw [if_neg hk]
        constructor
        · intro h
          rcases h with h | h
          · rcases List.mem_append.mp h with h | h
            · exact Or.inl h
            · exact Or.inr (List.mem_cons.mpr (Or.inl (List.mem_singleton.mp h)))
          · exact Or.inr (List.mem_cons_of_mem k h)
        · intro h
          rcases h with h | h
          · exact Or.inl (List.mem_append_left _ h)
          · rcases List.mem_cons.mp h with rfl | h
            · exact Or.inl (List.mem_append_right _ (List.mem_singleton_self a))
            · exact Or.inr h

/-- dedupFirst keeps exactly the members of its input. -/
lemma mem_dedupFirst {α : Type} [DecidableEq α] (l : List α) (a : α) :
    a ∈ dedupFirst l ↔ a ∈ l := by
  unfold dedupFirst
  rw [dedupFirst_mem_foldl]
  simp

/-- The dedup fold keeps the accumulator duplicate-free. -/
lemma dedupFirst_nodup_foldl {α : Type} [DecidableEq α] :
    ∀ (l acc : List α), acc.Nodup →
      (l.foldl (fun acc k => if k ∈ acc then acc else acc ++ [k]) acc).Nodup := by
  intro l
  induction l with
  | nil => intro acc h; simpa using h
  | cons k rest ih =>
      intro acc h
      rw [List.foldl_cons]
      apply ih
      by_cases hk : k ∈ acc
      · rw [if_pos hk]; exact h
      · rw [if_neg hk, List.nodup_append]
        refine ⟨h, List.nodup_singleton k, ?_⟩
        intro a ha hb
        rw [List.mem_singleton] at hb
        rw [hb] at ha
        exact hk ha

/-- dedupFirst yields a duplicate-free list. -/
lemma dedupFirst_nodup {α : Type} [DecidableEq α] (l : List α) : (dedupFirst l).Nodup :=
  dedupFirst_nodup_foldl l [] List.nodup_nil

/-- Unfolding the balances key test. -/
lemma balMatch_true_iff {w c : String} {x : BalanceRow} :
    balMatch w c x = true ↔ x.walletId = w ∧ x.contractAddress = c := by
  simp [balMatch]

/-- After the DO UPDATE branch of the upsert, the matching row carries the
new balance. -/
lemma upsert_find_self_aux (b : BalanceRow) :
    ∀ bals : List BalanceRow,
      bals.any (balMatch b.walletId b.contractAddress) = true →
      ((bals.map (fun x =>
          if balMatch b.walletId b.contractAddress x then
            { x with tokenSymbol := b.tokenSymbol, tokenName := b.tokenName,
                     balance := b.balance, balanceDecimal := b.balanceDecimal,
                     lastUpdated := b.lastUpdated }
          else x)).find? (balMatch b.walletId b.contractAddress)).map
        BalanceRow.balanceDecimal = some b.balanceDecimal := by
  intro bals
  induction bals with
  | nil => intro h; simp at h
  | cons x rest ih =>
      intro h
      rw [List.map_cons]
      cases hx : balMatch b.walletId b.contractAddress x with
      | true =>
          have hlit : balMatch b.walletId b.contractAddress
              { x with tokenSymbol := b.tokenSymbol, tokenName := b.tokenName,
                       balance := b.balance, balanceDecimal := b.balanceDecimal,
                       lastUpdated := b.lastUpdated } = true := hx
          rw [if_pos rfl, List.find?_cons_of_pos _ hlit]
          rfl
      | false =>
          rw [if_neg (by simp [hx]), List.find?_cons_of_neg _ (by simp [hx])]
          apply ih
          rw [List.any_cons, hx] at h
          simpa using h

/-- The stored balance after an upsert, looked up at the upserted key. -/
lemma upsert_find_self (bals : List BalanceRow) (b : BalanceRow) :
    ((upsertBalance bals b).find? (balMatch b.walletId b.contractAddress)).map
      BalanceRow.balanceDecimal = some b.balanceDecimal := by
  unfold upsertBalance
  split
  · next hany => exact upsert_find_self_aux b bals hany
  · next hany =>
      have hnone : bals.find? (balMatch b.walletId b.contractAddress) = none := by
        rw [List.find?_eq_none]
        intro x hx hpx
        exact hany (List.any_eq_true.mpr ⟨x, hx, hpx⟩)
      rw [List.find?_append, hnone]
      simp [List.find?, balMatch]

/-- The DO UPDATE branch leaves every other key untouched. -/
lemma upsert_map_find_other (b : BalanceRow) (w c : String)
    (hne : ¬(b.walletId = w ∧ b.contractAddress = c)) :
    ∀ bals : List BalanceRow,
      ((bals.map (fun x =>
          if balMatch b.walletId b.contractAddress x then
            { x with tokenSymbol := b.tokenSymbol, tokenName := b.tokenName,
                     balance := b.balance, balanceDecimal := b.balanceDecimal,
                     lastUpdated := b.lastUpdated }
          else x)).find? (balMatch w c)) = bals.find? (balMatch w c) := by
  intro bals
  induction bals with
  | nil => rfl
  | cons x rest ih =>
      rw [List.map_cons]
      cases hbx : balMatch b.walletId b.contractAddress x with
      | false =>
          rw [if_neg (by simp [hbx])]
          cases hx : balMatch w c x with
          | true => rw [List.find?_cons_of_pos _ hx, List.find?_cons_of_pos _ hx]
          | false =>
              rw [List.find?_cons_of_neg _ (by simp [hx]),
                List.find?_cons_of_neg _ (by simp [hx])]
              exact ih
      | true =>
          rw [if_pos rfl]
          have hx : balMatch w c x = false := by
            cases hx : balMatch w c x with
            | false => rfl
            | true =>
                exfalso
                apply hne
                obtain ⟨hbw, hbc⟩ := balMatch_true_iff.mp hbx
                obtain ⟨hww, hcc⟩ := balMatch_true_iff.mp hx
                exact ⟨hbw.symm.trans hww, hbc.symm.trans hcc⟩
          rw [List.find?_cons_of_neg _ (by simp [balMatch] at hx ⊢; exact hx),
            List.find?_cons_of_neg _ (by simp [hx])]
          exact ih

/-- An upsert at key b leaves the lookup at any other key unchanged. -/
lemma upsert_find_other (bals : List BalanceRow) (b : BalanceRow) (w c : String)
    (hne : ¬(b.walletId = w ∧ b.contractAddress = c)) :
    (upsertBalance bals b).find? (balMatch w c) = bals.find? (balMatch w c) := by
  unfold upsertBalance
  split
  · exact upsert_map_find_other b w c hne bals
  · rw [List.find?_append]
    have hpb : List.find? (balMatch w c) [b] = none := by
      cases hpb : balMatch w c b with
      | false => simp [List.find?, hpb]
      | true =>
          exfalso
          exact hne (balMatch_true_iff.mp hpb)
    rw [hpb]
    cases bals.find? (balMatch w c) <;> rfl

/-- The key fields and the stored value of a written snapshot. -/
lemma snapshot_fields (rows : List TxRow) (now : Int) (k : String × String)
    (snap : BalanceRow) (h : balanceSnapshotFor rows now k = some snap) :
    snap.walletId = k.1 ∧ snap.contractAddress = k.2 ∧
      snap.balanceDecimal = balFor rows k.1 k.2 := by
  unfold balanceSnapshotFor at h
  cases hh : (rows.filter (fun r => r.walletId == k.1 && r.contractAddress == k.2)).head? with
  | none => rw [hh] at h; exact Option.noConfusion h
  | some r0 =>
      rw [hh] at h
      simp only [Option.some.injEq] at h
      rw [← h]
      exact ⟨rfl, rfl, rfl⟩

/-- Every key of the ledger has a snapshot (its group is non-empty). -/
lemma snapshot_some (rows : List TxRow) (now : Int) (k : String × String)
    (hmem : k ∈ rows.map (fun r => (r.walletId, r.contractAddress))) :
    ∃ snap, balanceSnapshotFor rows now k = some snap := by
  obtain ⟨r, hr, hk⟩ := List.mem_map.mp hmem
  have hfil : r ∈ rows.filter (fun r => r.walletId == k.1 && r.contractAddress == k.2) := by
    rw [List.mem_filter]
    refine ⟨hr, ?_⟩
    rw [← hk]
    simp
  cases hh : (rows.filter (fun r => r.walletId == k.1 && r.contractAddress == k.2)).head? with
  | none =>
      rw [List.head?_eq_none_iff] at hh
      rw [hh] at hfil
      exact absurd hfil (List.not_mem_nil r)
  | some r0 =>
      exact ⟨_, by unfold balanceSnapshotFor; rw [hh]⟩

/-- The write loop never touches the transactions table. -/
lemma applySnapshot_transactions (rows : List TxRow) (now : Int) (db' : DB)
    (k : String × String) : (applySnapshot rows now db' k).transactions = db'.transactions := by
  unfold applySnapshot
  cases balanceSnapshotFor rows now k <;> rfl

/-- Reconciliation never touches the transactions table. -/
lemma computeTokenBalances_transactions_foldl (rows : List TxRow) (now : Int) :
    ∀ (keys : List (String × String)) (db' : DB),
      (keys.foldl (applySnapshot rows now) db').transactions = db'.transactions := by
  intro keys
  induction keys with
  | nil => intro db'; rfl
  | cons k rest ih =>
      intro db'
      rw [List.foldl_cons, ih, applySnapshot_transactions]

/-- The lookup after writing a ledger key equals the recomputed balance. -/
lemma applySnapshot_lookup_self (rows : List TxRow) (now : Int) (db' : DB)
    (k : String × String) (hmem : k ∈ rows.map (fun r => (r.walletId, r.contractAddress))) :
    lookupBalanceDec (applySnapshot rows now db' k) k.1 k.2 = some (balFor rows k.1 k.2) := by
  obtain ⟨snap, hsnap⟩ := snapshot_some rows now k hmem
  obtain ⟨hw, hc, hbd⟩ := snapshot_fields rows now k snap hsnap
  unfold applySnapshot
  rw [hsnap]
  unfold lookupBalanceDec
  rw [← hbd, ← hw, ← hc]
  exact upsert_find_self db'.balances snap

/-- Writing one key leaves the lookup at any other key unchanged. -/
lemma applySnapshot_lookup_other (rows : List TxRow) (now : Int) (db' : DB)
    (k : String × String) (w c : String) (hne : (w, c) ≠ k) :
    lookupBalanceDec (applySnapshot rows now db' k) w c = lookupBalanceDec db' w c := by
  unfold applySnapshot
  cases hsnap : balanceSnapshotFor rows now k with
  | none => rfl
  | some snap =>
      obtain ⟨hw, hc, _⟩ := snapshot_fields rows now k snap hsnap
      unfold lookupBalanceDec
      rw [upsert_find_other db'.balances snap w c ?hne']
      case hne' =>
        intro hcontra
        apply hne
        obtain ⟨k1, k2⟩ := k
        obtain ⟨h1, h2⟩ := hcontra
        rw [← h1, ← h2, hw, hc]

/-- A fold over keys not containing (w, c) preserves its lookup. -/
lemma fold_lookup_notmem (rows : List TxRow) (now : Int) :
    ∀ (keys : List (String × String)) (db' : DB) (w c : String), (w, c) ∉ keys →
      lookupBalanceDec (keys.foldl (applySnapshot rows now) db') w c =
        lookupBalanceDec db' w c := by
  intro keys
  induction keys with
  | nil => intro db' w c _; rfl
  | cons k rest ih =>
      intro db' w c hnm
      rw [List.foldl_cons, ih _ w c (fun hh => hnm (List.mem_cons_of_mem k hh)),
        applySnapshot_lookup_other rows now db' k w c
          (fun hh => hnm (hh ▸ List.mem_cons_self k rest))]

/-- A fold over duplicate-free keys containing a ledger key stores its
recomputed balance. -/
lemma fold_lookup_mem (rows : List TxRow) (now : Int) :
    ∀ (keys : List (String × String)) (db' : DB) (w c : String),
      keys.Nodup → (w, c) ∈ keys →
      (w, c) ∈ rows.map (fun r => (r.walletId, r.contractAddress)) →
      lookupBalanceDec (keys.foldl (applySnapshot rows now) db') w c =
        some (balFor rows w c) := by
  intro keys
  induction keys with
  | nil => intro db' w c _ hm _; exact absurd hm (List.not_mem_nil _)
  | cons k rest ih =>
      intro db' w c hnd hm hledger
      rw [List.foldl_cons]
      rcases List.mem_cons.mp hm with rfl | hm
      · rw [fold_lookup_notmem rows now rest _ w c (List.nodup_cons.mp hnd).1]
        exact applySnapshot_lookup_self rows now db' (w, c) hledger
      · exact ih _ w c (List.nodup_cons.mp hnd).2 hm hledger

/-- C6 amended: after reconciliation, for every (wallet, contract) pair
with a non-empty contract address that appears on at least one non-error
row, the stored snapshot equals the sum of non-error incoming minus
non-error outgoing decimal values, whatever snapshots were stored before
(full overwrite); and reconciling twice yields the same stored balance at
every key. Pairs with the empty (native) contract address are excluded by
the query filter and keep whatever snapshot the balance connector wrote. -/
theorem c6_balance_reconciliation :
    (∀ (db : DB) (B : List BalanceRow) (now : Int) (w c : String), c ≠ "" →
      (∃ r ∈ db.transactions, r.walletId = w ∧ r.contractAddress = c ∧ r.isError = 0) →
      lookupBalanceDec (computeTokenBalances { db with balances := B } now "") w c =
        some (sumInMinusOut db w c)) ∧
    (∀ (db : DB) (now now2 : Int) (w c : String),
      lookupBalanceDec (computeTokenBalances (computeTokenBalances db now "") now2 "") w c =
        lookupBalanceDec (computeTokenBalances db now "") w c) := by
  constructor
  · intro db B now w c hc hex
    obtain ⟨r, hr, hrw, hrc, hre⟩ := hex
    have hfil : r ∈ db.transactions.filter (balanceRowFilter "") := by
      rw [List.mem_filter]
      refine ⟨hr, ?_⟩
      unfold balanceRowFilter
      rw [hrc, hre]
      simp [hc]
    have hmemmap : (w, c) ∈ (db.transactions.filter (balanceRowFilter "")).map
        (fun r => (r.walletId, r.contractAddress)) := by
      refine List.mem_map.mpr ⟨r, hfil, ?_⟩
      rw [hrw, hrc]
    have hkey : (w, c) ∈ dedupFirst ((db.transactions.filter (balanceRowFilter "")).map
        (fun r => (r.walletId, r.contractAddress))) := (mem_dedupFirst _ _).mpr hmemmap
    have hcompute : computeTokenBalances { db with balances := B } now "" =
        (dedupFirst ((db.transactions.filter (balanceRowFilter "")).map
          (fun r => (r.walletId, r.contractAddress)))).foldl
          (applySnapshot (db.transactions.filter (balanceRowFilter "")) now)
          { db with balances := B } := rfl
    rw [hcompute,
      fold_lookup_mem (db.transactions.filter (balanceRowFilter "")) now _
        { db with balances := B } w c (dedupFirst_nodup _) hkey hmemmap]
    congr 1
    have hfe : (db.transactions.filter (balanceRowFilter "")).filter
        (fun r => r.walletId == w && r.contractAddress == c) =
        db.transactions.filter
          (fun r => r.walletId == w && r.contractAddress == c && r.isError == 0) := by
      rw [List.filter_filter]
      apply List.filter_congr
      intro a _
      unfold balanceRowFilter
      by_cases hcc : a.contractAddress = c
      · rw [hcc]
        have hce : (c == "") = false := beq_eq_false_iff_ne.mpr hc
        rw [hce]
        cases hw1 : (a.walletId == w) <;> cases he1 : (a.isError == (0 : Int)) <;>
          simp [hw1, he1]
      · have hcf : (a.contractAddress == c) = false := beq_eq_false_iff_ne.mpr hcc
        cases hw1 : (a.walletId == w) <;> simp [hcf, hw1]
    unfold balFor sumInMinusOut
    rw [hfe]
  · intro db now now2 w c
    have htr : (computeTokenBalances db now "").transactions = db.transactions :=
      computeTokenBalances_transactions_foldl _ now _ db
    obtain ⟨db1, hdb1, htr1⟩ :
        ∃ db1, computeTokenBalances db now "" = db1 ∧ db1.transactions = db.transactions :=
      ⟨_, rfl, htr⟩
    rw [hdb1]
    have hrw : computeTokenBalances db1 now2 "" =
        (dedupFirst ((db.transactions.filter (balanceRowFilter "")).map
          (fun r => (r.walletId, r.contractAddress)))).foldl
          (applySnapshot (db.transactions.filter (balanceRowFilter "")) now2) db1 := by
      unfold computeTokenBalances
      rw [htr1]
    by_cases hmem : (w, c) ∈ (db.transactions.filter (balanceRowFilter "")).map
        (fun r => (r.walletId, r.contractAddress))
    · have hkey := (mem_dedupFirst ((db.transactions.filter (balanceRowFilter "")).map
        (fun r => (r.walletId, r.contractAddress))) (w, c)).mpr hmem
      rw [hrw,
        fold_lookup_mem (db.transactions.filter (balanceRowFilter "")) now2 _ db1 w c
          (dedupFirst_nodup _) hkey hmem, ← hdb1]
      have hrw0 : computeTokenBalances db now "" =
          (dedupFirst ((db.transactions.filter (balanceRowFilter "")).map
            (fun r => (r.walletId, r.contractAddress)))).foldl
            (applySnapshot (db.transactions.filter (balanceRowFilter "")) now) db := rfl
      rw [hrw0,
        fold_lookup_mem (db.transactions.filter (balanceRowFilter "")) now _ db w c
          (dedupFirst_nodup _) hkey hmem]
    · have hkey' : (w, c) ∉ dedupFirst ((db.transactions.filter (balanceRowFilter "")).map
        (fun r => (r.walletId, r.contractAddress))) :=
        fun hh => hmem ((mem_dedupFirst _ _).mp hh)
      rw [hrw, fold_lookup_notmem (db.transactions.filter (balanceRowFilter "")) now2 _
        db1 w c hkey']

/-- An incoming native (empty contract address) transfer row. -/
def c6EthRow : TxRow := { sampleRow with direction := "in", valueDecimal := 5 }

/-- A stale native balance snapshot for the same (wallet, contract) pair. -/
def c6Bal : BalanceRow :=
  { walletId := "w", tokenSymbol := "ETH", tokenName := "Ether", contractAddress := "",
    balance := "99", balanceDecimal := 99, lastUpdated := 0 }

/-- The ledger of the C6 counterexample. -/
def c6Db : DB := { transactions := [c6EthRow], balances := [c6Bal], fetchLog := [] }

/-- C6 counterexample: the pair (w, empty contract) appears in the ledger
with a non-error incoming transfer of 5, yet reconciliation filters out
empty contract addresses, so the stale snapshot 99 survives instead of the
claimed sum 5. -/
theorem c6_counterexample_native_pair :
    lookupBalanceDec (computeTokenBalances c6Db 7 "") "w" "" = some 99 ∧
    sumInMinusOut c6Db "w" "" = 5 ∧
    decide ((99 : ℚ) = 5) = false :=
  ⟨by with_unfolding_all decide, by with_unfolding_all decide, by decide⟩

/-- An incoming token transfer row for the C6 witness. -/
def c6TokRow : TxRow :=
  { sampleRow with
    direction := "in", valueDecimal := 5, contractAddress := "0xc",
    tokenSymbol := "USDC", txType := "erc20" }

/-- The token ledger of the C6 witness, with a stale snapshot to overwrite. -/
def c6Db2 : DB := { transactions := [c6TokRow], balances := [], fetchLog := [] }

/-- A stale token snapshot for the C6 witness. -/
def c6Stale : BalanceRow :=
  { walletId := "w", tokenSymbol := "USDC", tokenName := "USD Coin",
    contractAddress := "0xc", balance := "77", balanceDecimal := 77, lastUpdated := 0 }

/-- C6 witness: the amended invariant and idempotence at a concrete ledger. -/
theorem c6_balance_reconciliation_witness :
    lookupBalanceDec (computeTokenBalances { c6Db2 with balances := [c6Stale] } 3 "") "w" "0xc" =
      some (sumInMinusOut c6Db2 "w" "0xc") ∧
    lookupBalanceDec (computeTokenBalances (computeTokenBalances c6Db2 3 "") 4 "") "w" "0xc" =
      lookupBalanceDec (computeTokenBalances c6Db2 3 "") "w" "0xc" :=
  ⟨c6_balance_reconciliation.1 c6Db2 [c6Stale] 3 "w" "0xc" (by decide)
      ⟨c6TokRow, by decide, by decide, by decide, by decide⟩,
   c6_balance_reconciliation.2 c6Db2 3 4 "w" "0xc"⟩

end ScrollTreasury
